import Mathlib

/-!
Verification of the uumpy n-dimensional array engine.

Shallow embedding conventions:
* `mp_float_t` values are modelled as exact rationals `ℚ` (the algorithms are
  arithmetic-generic; rounding of the machine float type is outside the model).
* `size_t` / `mp_int_t` offsets and strides are modelled as `Int`, lengths and
  counts as `Nat` (no wraparound; all modelled executions stay in range).
* element buffers are modelled as `List ℚ` (dense 2-D linear-algebra buffers)
  or as total functions `Int → ℚ` (shared n-d array buffers); a view shares
  its source's buffer by holding the same function value.
* C `do/while` loops are modelled by structural recursion on an explicit fuel
  argument that is provably at least the number of iterations the C loop runs.
-/

set_option allowUnsafeReducibility true
attribute [semireducible] Rat.add Rat.mul Rat.inv Rat.div Rat.sub Rat.neg Rat.blt

deriving instance DecidableEq for Except

namespace Uumpy

/-- Error values raised by the engine.  Each constructor corresponds to one
`mp_raise_*` site in the sources; the C message is noted in the comment. -/
inductive UErr where
  /-- `ValueError("operands could not be broadcast together")` in `ndarray_broadcast`. -/
  | broadcastError
  /-- `ValueError("result has too many dimensions")` in `ndarray_dot_impl`. -/
  | tooManyDimsError
  /-- `ValueError("incompatible dimensions")` in `ndarray_dot_impl`. -/
  | incompatibleDimsError
  /-- `ValueError("dimension mis-match")` in `ufunc_mul_acc_fallback`. -/
  | dimMismatchError
  /-- `ValueError("axis tuple is empty")` in `uumpy_reduction_generic`. -/
  | axisEmptyError
  /-- `ValueError("axis index out of range")` in `uumpy_reduction_generic`. -/
  | axisRangeError
  /-- `ValueError("axis can only occur once")` in `uumpy_reduction_generic`. -/
  | axisDupError
  /-- `ValueError("axis may not be a tuple")` in `uumpy_reduction_helper_1`. -/
  | axisTupleError
  /-- `ValueError("destination dimensions incompatible with result")`. -/
  | destShapeError
  /-- `NotImplementedError("no reduction function for data type")`. -/
  | notImplementedError
  /-- `NotImplementedError("keepdims not currently supported")`. -/
  | keepdimsError
  /-- `LinAlgError("can only apply row echalon form to 2D matricies")`. -/
  | linAlgNot2DError
  /-- `LinAlgError("det can only be applied to square matricies")`. -/
  | linAlgNotSquareError
  /-- `MP_OBJ_NULL` returned by `ndarray_binary_op` when a kernel failed. -/
  | binaryOpError
deriving DecidableEq, Repr

/-! ## Linear algebra engine (`linalg.c`)

`_uumpy_linalg_reduce_array` works on the raw dense buffer of a freshly
converted 2-D array (width = `dim_info[1].length`, height = `dim_info[0].length`,
row-major, stride `width`,`1`), so the buffer is modelled as a flat `List ℚ`. -/

/-- Modelled from the spec: `UUMPY_EPSILON` is defined in `linalg.h`, which is
not among the provided sources; the spec says the pivot scan "skip[s]
magnitudes below a fixed epsilon".  We model it as a fixed small positive
rational. -/
def UUMPY_EPSILON : ℚ := 1 / 1000000000

/-- Read entry `data[row * width + col]` of the dense buffer
(source expression `data[x + j * width]`). -/
def matAt (data : List ℚ) (width row col : Nat) : ℚ :=
  data.getD (row * width + col) 0

/-- `_swap_negate_rows` (linalg.c): swap rows `a_row` and `b_row` from column
`start` on, multiplying the values landing in `b_row` by `-1` when `negate`. -/
def _swap_negate_rows (data : List ℚ) (width start a_row b_row : Nat)
    (negate : Bool) : List ℚ :=
  let neg : ℚ := if negate then -1 else 1
  (List.range' start (width - start)).foldl
    (fun d i =>
      let tmp := d.getD (a_row * width + i) 0
      let d := d.set (a_row * width + i) (d.getD (b_row * width + i) 0)
      d.set (b_row * width + i) (tmp * neg))
    data

/-- `_subtract_to_zero` (linalg.c): subtract a multiple of row `a_row` from row
`b_row` so that `b_row` starts with a zero at column `start`. -/
def _subtract_to_zero (data : List ℚ) (width start a_row b_row : Nat) : List ℚ :=
  let multiple := matAt data width b_row start / matAt data width a_row start
  if multiple ≠ 0 then
    let d := data.set (b_row * width + start) 0
    (List.range' (start + 1) (width - (start + 1))).foldl
      (fun d i =>
        d.set (b_row * width + i)
          (d.getD (b_row * width + i) 0 - d.getD (a_row * width + i) 0 * multiple))
      d
  else data

/-- `_divide_row` (linalg.c): divide row `row` by `dv` from column `start` on. -/
def _divide_row (data : List ℚ) (width start row : Nat) (dv : ℚ) : List ℚ :=
  (List.range' start (width - start)).foldl
    (fun d i => d.set (row * width + i) (d.getD (row * width + i) 0 / dv))
    data

/-- Count how many halvings bring `q` below `1` (fuel-bounded helper for the
binary exponent of a rational `≥ 1`). -/
def expSearchUp : Nat → ℚ → Nat
  | 0, _ => 0
  | fuel + 1, q => if q < 1 then 0 else expSearchUp fuel (q / 2) + 1

/-- Count how many doublings bring `q` up to `≥ 1` (fuel-bounded helper for the
binary exponent of a rational `< 1`). -/
def expSearchDown : Nat → ℚ → Nat
  | 0, _ => 0
  | fuel + 1, q => if 1 ≤ q then 0 else expSearchDown fuel (q * 2) + 1

/-- The binary exponent returned through `frexp(v, &exp)`: for `v ≠ 0` the
integer `e` with `2 ^ (e - 1) ≤ |v| < 2 ^ e`.  The fuel bounds are sufficient:
at most `log2(numerator) + 1 ≤ numerator` halvings, resp. at most
`log2(denominator) + 1 ≤ denominator` doublings, are needed.  (`v = 0` is never
queried: the pivot scan skips magnitudes below `UUMPY_EPSILON` first.) -/
def ratFrexpExp (v : ℚ) : ℤ :=
  let a := |v|
  if 1 ≤ a then (expSearchUp (a.num.natAbs + 1) a : ℤ)
  else 1 - (expSearchDown a.den a : ℤ)

/-- Pivot scan of `_uumpy_linalg_reduce_array` over the rows `j` listed (in
order `y, y+1, …, height-1`): skip `|v| < UUMPY_EPSILON`; a value exactly `1`
wins immediately (`break`); otherwise the first row whose `abs` binary
exponent is strictly smallest wins (`best_abs_exponent` starts at `0x7fff`). -/
def findPivotAux (data : List ℚ) (width x : Nat) :
    List Nat → Option Nat → ℤ → Option Nat
  | [], best, _ => best
  | j :: rest, best, bestExp =>
    let v := matAt data width j x
    if |v| < UUMPY_EPSILON then findPivotAux data width x rest best bestExp
    else if v = 1 then some j
    else
      let e := |ratFrexpExp v|
      if e < bestExp then findPivotAux data width x rest (some j) e
      else findPivotAux data width x rest best bestExp

/-- The pivot search loop (`for (size_t j = y; j < height; j++)`). -/
def findPivot (data : List ℚ) (width x y height : Nat) : Option Nat :=
  findPivotAux data width x (List.range' y (height - y)) none 32767

/-- State of the `_uumpy_linalg_reduce_array` main loop: the buffer, the row
cursor `y`, the column cursor `x` and the running `det_change` factor. -/
structure RRState where
  data : List ℚ
  y : Nat
  x : Nat
  det : ℚ
deriving DecidableEq, Repr

/-- One iteration of the `while (y < height && x < width)` loop of
`_uumpy_linalg_reduce_array`. -/
def reduceStep (height width : Nat) (diag norm : Bool) (s : RRState) : RRState :=
  match findPivot s.data width s.x s.y height with
  | none => { s with x := s.x + 1 }
  | some best_row =>
    let d1 := if best_row ≠ s.y then
        _swap_negate_rows s.data width s.x s.y best_row true
      else s.data
    let d2 :=
      if diag then
        (List.range height).foldl
          (fun d j => if j ≠ s.y then _subtract_to_zero d width s.x s.y j else d) d1
      else
        (List.range' (s.y + 1) (height - (s.y + 1))).foldl
          (fun d j => _subtract_to_zero d width s.x s.y j) d1
    if norm then
      let dv := matAt d2 width s.y s.x
      { data := _divide_row d2 width s.x s.y dv,
        y := s.y + 1, x := s.x + 1, det := s.det / dv }
    else
      { data := d2, y := s.y + 1, x := s.x + 1, det := s.det }

/-- The main loop of `_uumpy_linalg_reduce_array`, fuel-bounded; `x` advances
by one every iteration, so fuel `width` (with `x` starting at `0`) is exact:
when the fuel runs out `x = width` and the C guard would stop anyway. -/
def reduceLoop (height width : Nat) (diag norm : Bool) : Nat → RRState → RRState
  | 0, s => s
  | fuel + 1, s =>
    if s.y < height ∧ s.x < width then
      reduceLoop height width diag norm fuel (reduceStep height width diag norm s)
    else s

/-- `_uumpy_linalg_reduce_array` on a dense `height × width` buffer: returns
the final loop state; the C function returns `x` and writes `det_change`
through `det_change_out`.  The final `y` is the number of columns that
received a pivot. -/
def uumpy_reduce_rows (height width : Nat) (data : List ℚ)
    (diag norm : Bool) : RRState :=
  reduceLoop height width diag norm width { data := data, y := 0, x := 0, det := 1 }

/-- A freshly converted array as produced by `uumpy_array_from_value`:
row-major and contiguous, so only the axis lengths and the flat buffer
matter to the linear-algebra engine. -/
structure DenseArray where
  shape : List Nat
  data : List ℚ
deriving DecidableEq, Repr

/-- `uumpy_linalg_det` (linalg.c): require a square 2-D input, run
non-diagonalizing, normalizing row reduction, return `1 / det_change`. -/
def uumpy_linalg_det (a : DenseArray) : Except UErr ℚ :=
  if a.shape.length ≠ 2 then .error .linAlgNot2DError
  else if a.shape.getD 0 0 ≠ a.shape.getD 1 0 then .error .linAlgNotSquareError
  else .ok (1 / (uumpy_reduce_rows (a.shape.getD 0 0) (a.shape.getD 1 0)
                   a.data false true).det)

lemma reduceStep_x (height width : Nat) (diag norm : Bool) (s : RRState) :
    (reduceStep height width diag norm s).x = s.x + 1 := by
  unfold reduceStep
  rcases findPivot s.data width s.x s.y height with _ | br
  · rfl
  · dsimp only
    split <;> rfl

lemma reduceStep_y_le (height width : Nat) (diag norm : Bool) (s : RRState) :
    (reduceStep height width diag norm s).y ≤ s.y + 1 := by
  unfold reduceStep
  rcases findPivot s.data width s.x s.y height with _ | br
  · exact Nat.le_succ _
  · dsimp only
    split <;> exact Nat.le_refl _

lemma reduceLoop_inv (height width : Nat) (diag norm : Bool) :
    ∀ (fuel : Nat) (s : RRState), s.y ≤ s.x → s.y ≤ height → fuel + s.x = width →
      (reduceLoop height width diag norm fuel s).y
          ≤ (reduceLoop height width diag norm fuel s).x ∧
        (reduceLoop height width diag norm fuel s).x ≤ width ∧
        ((reduceLoop height width diag norm fuel s).y = height ∨
          (reduceLoop height width diag norm fuel s).x = width) := by
  intro fuel
  induction fuel with
  | zero =>
    intro s h1 h2 h3
    simp only [reduceLoop]
    exact ⟨h1, by omega, Or.inr (by omega)⟩
  | succ n ih =>
    intro s h1 h2 h3
    rw [reduceLoop]
    split
    case isTrue hg =>
      have hx := reduceStep_x height width diag norm s
      have hy := reduceStep_y_le height width diag norm s
      exact ih _ (by omega) (by omega) (by omega)
    case isFalse hg =>
      have hxw : s.x < width := by omega
      have hyh : ¬ s.y < height := fun hcon => hg ⟨hcon, hxw⟩
      exact ⟨h1, by omega, Or.inl (by omega)⟩

/-- C1 (corrected): `_uumpy_linalg_reduce_array` returns the column cursor `x`
at loop exit — the number of leading columns consumed — not the number of
columns that received a pivot (the final `y`).  The return value is an upper
bound on the pivot count, the loop stops exactly when either every row has a
pivot (`y = height`) or every column was consumed (`x = width`), and for a
square matrix the return value therefore always equals the width, so it can
never be below the width for a singular square matrix. -/
theorem c1_reduce_rows_returns_columns_consumed
    (height width : Nat) (data : List ℚ) (diag norm : Bool) :
    (uumpy_reduce_rows height width data diag norm).y
        ≤ (uumpy_reduce_rows height width data diag norm).x ∧
      (uumpy_reduce_rows height width data diag norm).x ≤ width ∧
      ((uumpy_reduce_rows height width data diag norm).y = height ∨
        (uumpy_reduce_rows height width data diag norm).x = width) ∧
      (height = width → (uumpy_reduce_rows height width data diag norm).x = width) := by
  unfold uumpy_reduce_rows
  have h := reduceLoop_inv height width diag norm width
    { data := data, y := 0, x := 0, det := 1 } (Nat.le_refl 0) (Nat.zero_le _)
    (by show width + 0 = width; omega)
  refine ⟨h.1, h.2.1, h.2.2, fun hsq => ?_⟩
  rcases h.2.2 with hy | hx
  · have h1 := h.1
    have h2 := h.2.1
    omega
  · exact hx

/-- C1 witness: at the square matrix `[[1,2],[3,4]]` the row reduction
consumes both columns, so the returned value is `2`. -/
theorem c1_witness :
    (uumpy_reduce_rows 2 2 [1, 2, 3, 4] false true).x = 2 :=
  (c1_reduce_rows_returns_columns_consumed 2 2 [1, 2, 3, 4] false true).2.2.2 rfl

/-- C1 counterexample: on the singular square matrix `[[0]]` the function
returns `1` (one column consumed) although no column received a pivot
(final `y = 0`), and the returned value is not below the matrix width, so the
claimed square-matrix singularity test never fires. -/
theorem c1_counterexample :
    (uumpy_reduce_rows 1 1 [(0 : ℚ)] false true).x = 1 ∧
      (uumpy_reduce_rows 1 1 [(0 : ℚ)] false true).y = 0 ∧
      ¬ ((uumpy_reduce_rows 1 1 [(0 : ℚ)] false true).x < 1) := by
  decide

/-- C5: `uumpy_linalg_det` rejects non-2-D input and non-square 2-D input with
a `LinAlgError`, and on a square input runs normalizing (non-diagonalizing)
row reduction — whose `det_change` is divided by each pivot value used for
normalization — and returns `1 / det_change`; concretely
`det([[1,2],[3,4]]) = -2`. -/
theorem c5_determinant
    (a : DenseArray) :
    (a.shape.length ≠ 2 → uumpy_linalg_det a = .error .linAlgNot2DError) ∧
      (a.shape.length = 2 → a.shape.getD 0 0 ≠ a.shape.getD 1 0 →
        uumpy_linalg_det a = .error .linAlgNotSquareError) ∧
      (a.shape.length = 2 → a.shape.getD 0 0 = a.shape.getD 1 0 →
        uumpy_linalg_det a =
          .ok (1 / (uumpy_reduce_rows (a.shape.getD 0 0) (a.shape.getD 1 0)
                      a.data false true).det)) ∧
      uumpy_linalg_det ⟨[2, 2], [1, 2, 3, 4]⟩ = .ok (-2) := by
  refine ⟨?_, ?_, ?_, ?_⟩
  · intro h
    unfold uumpy_linalg_det
    rw [if_pos h]
  · intro h2 hne
    unfold uumpy_linalg_det
    rw [if_neg (fun hc => hc h2), if_pos hne]
  · intro h2 heq
    unfold uumpy_linalg_det
    rw [if_neg (fun hc => hc h2), if_neg (fun hc => hc heq)]
  · decide

/-- C5 witness: instantiating each part at a concrete input — a 1-D input is
rejected, a non-square 2-D input is rejected, and on `[[1,2],[3,4]]` the
result is `1 / det_change`, concretely `-2`. -/
theorem c5_witness :
    uumpy_linalg_det ⟨[3], [1, 2, 3]⟩ = .error .linAlgNot2DError ∧
      uumpy_linalg_det ⟨[1, 2], [1, 2]⟩ = .error .linAlgNotSquareError ∧
      uumpy_linalg_det ⟨[2, 2], [1, 2, 3, 4]⟩ =
        .ok (1 / (uumpy_reduce_rows 2 2 [1, 2, 3, 4] false true).det) := by
  refine ⟨(c5_determinant ⟨[3], [1, 2, 3]⟩).1 (by decide),
    (c5_determinant ⟨[1, 2], [1, 2]⟩).2.1 (by decide) (by decide),
    (c5_determinant ⟨[2, 2], [1, 2, 3, 4]⟩).2.2.1 (by decide) (by decide)⟩

/-! ## Array/view model (`moduumpy.c`)

An `ndarray` object: dtype tag, per-axis `(length, stride)` descriptors,
base offset and the shared element buffer.  A view shares its source's
buffer by holding the same `data` function value. -/

/-- One `(length, stride)` axis descriptor (`uumpy_dim_info`); the stride is
measured in elements. -/
structure DimInfo where
  length : Nat
  stride : Int
deriving DecidableEq, Repr

instance : Inhabited DimInfo := ⟨⟨0, 0⟩⟩

/-- `uumpy_obj_ndarray_t`: dtype tag, axis descriptors, base offset,
shared buffer.  (The `simple`/`free` bookkeeping bits are not needed by the
claims modelled here.) -/
structure NDArray where
  typecode : Char
  dims : List DimInfo
  base_offset : Int
  data : Int → ℚ

/-- `UUMPY_DEFAULT_TYPE` for a double-float build. -/
def UUMPY_DEFAULT_TYPE : Char := 'd'

/-- `UUMPY_MAX_DIMS`. -/
def UUMPY_MAX_DIMS : Nat := 8

/-- `dim_count`. -/
def NDArray.rank (a : NDArray) : Nat := a.dims.length

/-- The list of axis lengths. -/
def NDArray.shape (a : NDArray) : List Nat := a.dims.map DimInfo.length

/-- Offset contributed by a multi-index: `Σ idx[k] * stride[k]`. -/
def dimsOffset : List DimInfo → List Int → Int
  | [], _ => 0
  | _, [] => 0
  | d :: ds, i :: is => i * d.stride + dimsOffset ds is

/-- Element access through the view: `data[base_offset + Σ idx[k]*stride[k]]`. -/
def NDArray.get (a : NDArray) (idx : List Int) : ℚ :=
  a.data (a.base_offset + dimsOffset a.dims idx)

/-- The row-major `(length, stride)` list computed by `ndarray_new`: the last
axis has stride 1 and each earlier stride is the product of the more-trailing
lengths; also returns the total element count. -/
def rowMajorDims : List Nat → List DimInfo × Int
  | [] => ([], 1)
  | len :: rest =>
    let p := rowMajorDims rest
    (⟨len, p.2⟩ :: p.1, p.2 * len)

/-- `ndarray_new`: fresh contiguous row-major array over a zero-initialized
buffer (`m_new` storage modelled as all zeros). -/
def ndarray_new (tc : Char) (shape : List Nat) : NDArray :=
  { typecode := tc, dims := (rowMajorDims shape).1, base_offset := 0,
    data := fun _ => 0 }

/-- `ndarray_new_shaped_like`: fresh array shaped like `other`'s leading
`rank - trim` axes. -/
def ndarray_new_shaped_like (tc : Char) (other : NDArray) (trim : Nat) : NDArray :=
  ndarray_new tc (other.shape.take (other.rank - trim))

/-- `ndarray_new_view`: share the source's buffer under new dims/offset. -/
def ndarray_new_view (source : NDArray) (newBase : Int)
    (newDims : List DimInfo) : NDArray :=
  { typecode := source.typecode, dims := newDims, base_offset := newBase,
    data := source.data }

/-- `ndarray_new_0d`: rank-0 array over a one-slot buffer holding `v`. -/
def ndarray_new_0d (tc : Char) (v : ℚ) : NDArray :=
  { typecode := tc, dims := [], base_offset := 0,
    data := Function.update (fun _ => 0) 0 v }

/-- A value handed back to the host: either a plain scalar or an array/view
object (`mp_obj_t`). -/
inductive PyValue where
  | scalar (v : ℚ)
  | array (a : NDArray)

/-- `ndarray_get_obj_or_0d` (moduumpy.c): a rank-0 result is unwrapped to the
plain scalar element; anything else is returned as the array object. -/
def ndarray_get_obj_or_0d (o : NDArray) : PyValue :=
  if o.dims.length = 0 then .scalar (o.data o.base_offset) else .array o

/-- The load-path return of `ndarray_subscr` (moduumpy.c, value sentinel
branch): if the subscripts consumed every axis (`target_dim_offset == 0`) the
element at the computed offset is returned as a plain scalar, otherwise a
fresh view is returned. -/
def ndarray_subscr_return (o : NDArray) (targetBase : Int)
    (targetDims : List DimInfo) : PyValue :=
  if targetDims.length = 0 then .scalar (o.data targetBase)
  else .array (ndarray_new_view o targetBase targetDims)

/-- The return of `uumpy_reduction_generic` (reductions source): a rank-0
destination is unwrapped to its single element, otherwise the destination
array object is returned. -/
def uumpy_reduction_return (dest : NDArray) : PyValue :=
  if dest.dims.length = 0 then .scalar (dest.data dest.base_offset)
  else .array dest

/-- C10: on every modelled result path that can produce a rank-0 result —
`ndarray_get_obj_or_0d` (used by element-wise unary/binary operations),
the integer-subscript load path of `ndarray_subscr`, and the return of
`uumpy_reduction_generic` — a rank-0 result is returned as the plain scalar
element value and a result of rank ≥ 1 as an array/view object. -/
theorem c10_rank0_results_are_scalars (o : NDArray) (targetBase : Int)
    (targetDims : List DimInfo) (dest : NDArray) :
    (o.dims.length = 0 →
      ndarray_get_obj_or_0d o = .scalar (o.data o.base_offset)) ∧
    (o.dims.length ≠ 0 → ndarray_get_obj_or_0d o = .array o) ∧
    (targetDims.length = 0 →
      ndarray_subscr_return o targetBase targetDims = .scalar (o.data targetBase)) ∧
    (targetDims.length ≠ 0 →
      ndarray_subscr_return o targetBase targetDims
        = .array (ndarray_new_view o targetBase targetDims)) ∧
    (dest.dims.length = 0 →
      uumpy_reduction_return dest = .scalar (dest.data dest.base_offset)) ∧
    (dest.dims.length ≠ 0 → uumpy_reduction_return dest = .array dest) := by
  refine ⟨fun h => ?_, fun h => ?_, fun h => ?_, fun h => ?_, fun h => ?_, fun h => ?_⟩
  · unfold ndarray_get_obj_or_0d; rw [if_pos h]
  · unfold ndarray_get_obj_or_0d; rw [if_neg h]
  · unfold ndarray_subscr_return; rw [if_pos h]
  · unfold ndarray_subscr_return; rw [if_neg h]
  · unfold uumpy_reduction_return; rw [if_pos h]
  · unfold uumpy_reduction_return; rw [if_neg h]

/-- C10 witness: a rank-0 array is unwrapped to its scalar on all three
paths; a rank-1 array is returned as an array object. -/
theorem c10_witness :
    ndarray_get_obj_or_0d (ndarray_new_0d UUMPY_DEFAULT_TYPE 5)
        = .scalar ((ndarray_new_0d UUMPY_DEFAULT_TYPE 5).data
            (ndarray_new_0d UUMPY_DEFAULT_TYPE 5).base_offset) ∧
      ndarray_get_obj_or_0d (ndarray_new UUMPY_DEFAULT_TYPE [2])
        = .array (ndarray_new UUMPY_DEFAULT_TYPE [2]) ∧
      ndarray_subscr_return (ndarray_new UUMPY_DEFAULT_TYPE [2]) 1 []
        = .scalar ((ndarray_new UUMPY_DEFAULT_TYPE [2]).data 1) ∧
      ndarray_subscr_return (ndarray_new UUMPY_DEFAULT_TYPE [2]) 0 [⟨2, 1⟩]
        = .array (ndarray_new_view (ndarray_new UUMPY_DEFAULT_TYPE [2]) 0 [⟨2, 1⟩]) ∧
      uumpy_reduction_return (ndarray_new_0d UUMPY_DEFAULT_TYPE 5)
        = .scalar ((ndarray_new_0d UUMPY_DEFAULT_TYPE 5).data
            (ndarray_new_0d UUMPY_DEFAULT_TYPE 5).base_offset) ∧
      uumpy_reduction_return (ndarray_new UUMPY_DEFAULT_TYPE [2])
        = .array (ndarray_new UUMPY_DEFAULT_TYPE [2]) := by
  have h0 := c10_rank0_results_are_scalars (ndarray_new_0d UUMPY_DEFAULT_TYPE 5)
    1 [] (ndarray_new_0d UUMPY_DEFAULT_TYPE 5)
  have h1 := c10_rank0_results_are_scalars (ndarray_new UUMPY_DEFAULT_TYPE [2])
    0 [⟨2, 1⟩] (ndarray_new UUMPY_DEFAULT_TYPE [2])
  have h2 := c10_rank0_results_are_scalars (ndarray_new UUMPY_DEFAULT_TYPE [2])
    1 [] (ndarray_new UUMPY_DEFAULT_TYPE [2])
  exact ⟨h0.1 rfl, h1.2.1 (by decide), h2.2.2.1 rfl,
    h1.2.2.2.1 (by decide), h0.2.2.2.2.1 rfl, h1.2.2.2.2.2 (by decide)⟩

/-! ## Transpose (`ndarray_transpose`, moduumpy.c) -/

/-- `ndarray_transpose` with no explicit order: `new_order_indices[i] =
(dim_count - 1) - i`, then `new_dim_info[i] = dim_info[order[i]]` and a view
over the same buffer and base offset. -/
def ndarray_transpose_default (o : NDArray) : NDArray :=
  ndarray_new_view o o.base_offset
    ((List.range o.dims.length).map
      (fun i => o.dims.getD (o.dims.length - 1 - i) default))

lemma transpose_dims_eq_reverse (o : NDArray) :
    (ndarray_transpose_default o).dims = o.dims.reverse := by
  apply List.ext_getElem
  · simp [ndarray_transpose_default, ndarray_new_view]
  · intro i h1 h2
    simp only [ndarray_transpose_default, ndarray_new_view,
      List.getElem_map, List.getElem_range, List.getElem_reverse] at h1 ⊢
    have hlen : i < o.dims.length := by
      simpa using h2
    rw [List.getD_eq_getElem o.dims default (by omega)]

lemma transpose_transpose_eq (a : NDArray) :
    ndarray_transpose_default (ndarray_transpose_default a) = a := by
  have h1 := transpose_dims_eq_reverse (ndarray_transpose_default a)
  have h2 := transpose_dims_eq_reverse a
  rw [h2] at h1
  rw [List.reverse_reverse] at h1
  cases a with
  | mk tc dims base data =>
    have hb : (ndarray_transpose_default (ndarray_transpose_default
        ⟨tc, dims, base, data⟩)).base_offset = base := rfl
    have hd : (ndarray_transpose_default (ndarray_transpose_default
        ⟨tc, dims, base, data⟩)).data = data := rfl
    have ht : (ndarray_transpose_default (ndarray_transpose_default
        ⟨tc, dims, base, data⟩)).typecode = tc := rfl
    cases hres : ndarray_transpose_default (ndarray_transpose_default
        ⟨tc, dims, base, data⟩) with
    | mk tc2 dims2 base2 data2 =>
      rw [hres] at h1 hb hd ht
      simp only at h1 hb hd ht
      rw [h1, hb, hd, ht]

/-- C9: applying the default axis-reversal transpose twice yields an array
equal to the original element-wise: every multi-index reads the same element
(in fact the double transpose is the identity on the whole view structure). -/
theorem c9_transpose_twice_identity (a : NDArray) (idx : List Int) :
    (ndarray_transpose_default (ndarray_transpose_default a)).get idx
      = a.get idx := by
  rw [transpose_transpose_eq]

/-! ## Universal traversal engine (`reductions.h`: `ufunc_apply_binary`,
`ufunc_apply_unary`)

The per-element operation (`spec->apply_fn`) is abstracted as a kernel that
receives the destination buffer and the current `(dest, src…)` offsets and
returns the updated destination buffer plus its success flag — exactly the
information flow of the C kernels, which read the sources, write the
destination, and return `bool`. -/

/-- Binary kernel: destination buffer, `(dest, src1, src2)` offsets ↦ updated
buffer and success flag. -/
def BinKernel : Type := (Int → ℚ) → Int × Int × Int → (Int → ℚ) × Bool

/-- Unary kernel: destination buffer, `(dest, src)` offsets ↦ updated buffer
and success flag. -/
def UnKernel : Type := (Int → ℚ) → Int × Int → (Int → ℚ) × Bool

/-- The carry loop at the end of each `do/while` iteration of
`ufunc_apply_binary`: per-axis records `(length, dest stride, src1 stride,
src2 stride)` are listed innermost-first (the C loop runs `l` from
`iterate_layers-1` down to `0`); each axis first advances all three offsets by
its stride and decrements its countdown; a countdown still positive stops the
carry, otherwise the axis resets (countdown back to `length`, offsets pulled
back by `length * stride`) and the carry moves outward; `none` means the
outermost axis overflowed (`l` reached `-1`, ending the traversal). -/
def odoAdvance3 :
    List (Nat × Int × Int × Int) → List Nat → Int × Int × Int →
      Option (List Nat × (Int × Int × Int))
  | [], _, _ => none
  | _, [], _ => none
  | (len, sd, s1, s2) :: restD, c :: restC, (od, o1, o2) =>
    let od := od + sd
    let o1 := o1 + s1
    let o2 := o2 + s2
    let c := c - 1
    if 0 < c then some (c :: restC, (od, o1, o2))
    else
      match odoAdvance3 restD restC (od - (len : Int) * sd, o1 - (len : Int) * s1,
          o2 - (len : Int) * s2) with
      | none => none
      | some p => some (len :: p.1, p.2)

/-- The unary analog of `odoAdvance3` (records `(length, dest stride,
src stride)`). -/
def odoAdvance2 :
    List (Nat × Int × Int) → List Nat → Int × Int →
      Option (List Nat × (Int × Int))
  | [], _, _ => none
  | _, [], _ => none
  | (len, sd, s1) :: restD, c :: restC, (od, o1) =>
    let od := od + sd
    let o1 := o1 + s1
    let c := c - 1
    if 0 < c then some (c :: restC, (od, o1))
    else
      match odoAdvance2 restD restC (od - (len : Int) * sd, o1 - (len : Int) * s1) with
      | none => none
      | some p => some (len :: p.1, p.2)

/-- The `do/while` loop of `ufunc_apply_binary`: invoke the kernel at the
current offsets, AND its result into the running flag (`result &=`), then
advance the odometer; stop when the outermost axis overflows. -/
def applyBinaryLoop (k : BinKernel) (dimsRev : List (Nat × Int × Int × Int)) :
    Nat → List Nat → Int × Int × Int → (Int → ℚ) × Bool → (Int → ℚ) × Bool
  | 0, _, _, acc => acc
  | fuel + 1, counts, offs, acc =>
    let r := k acc.1 offs
    let acc2 := (r.1, acc.2 && r.2)
    match odoAdvance3 dimsRev counts offs with
    | none => acc2
    | some p => applyBinaryLoop k dimsRev fuel p.1 p.2 acc2

/-- The `do/while` loop of `ufunc_apply_unary`. -/
def applyUnaryLoop (k : UnKernel) (dimsRev : List (Nat × Int × Int)) :
    Nat → List Nat → Int × Int → (Int → ℚ) × Bool → (Int → ℚ) × Bool
  | 0, _, _, acc => acc
  | fuel + 1, counts, offs, acc =>
    let r := k acc.1 offs
    let acc2 := (r.1, acc.2 && r.2)
    match odoAdvance2 dimsRev counts offs with
    | none => acc2
    | some p => applyUnaryLoop k dimsRev fuel p.1 p.2 acc2

/-- The sequence of offset triples the binary traversal visits — the same
odometer, recording the offsets instead of invoking a kernel; it does not
depend on any kernel result. -/
def traversalLoop3 (dimsRev : List (Nat × Int × Int × Int)) :
    Nat → List Nat → Int × Int × Int → List (Int × Int × Int)
  | 0, _, _ => []
  | fuel + 1, counts, offs =>
    match odoAdvance3 dimsRev counts offs with
    | none => [offs]
    | some p => offs :: traversalLoop3 dimsRev fuel p.1 p.2

/-- The sequence of offset pairs the unary traversal visits. -/
def traversalLoop2 (dimsRev : List (Nat × Int × Int)) :
    Nat → List Nat → Int × Int → List (Int × Int)
  | 0, _, _ => []
  | fuel + 1, counts, offs =>
    match odoAdvance2 dimsRev counts offs with
    | none => [offs]
    | some p => offs :: traversalLoop2 dimsRev fuel p.1 p.2

/-- The per-outer-axis records of `ufunc_apply_binary`: countdowns start at
the destination lengths; each view contributes its own stride. -/
def layerInfo3 (dest src1 src2 : NDArray) (n : Nat) : List (Nat × Int × Int × Int) :=
  (List.range n).map fun l =>
    ((dest.dims.getD l default).length, (dest.dims.getD l default).stride,
      (src1.dims.getD l default).stride, (src2.dims.getD l default).stride)

/-- The unary analog of `layerInfo3`. -/
def layerInfo2 (dest src : NDArray) (n : Nat) : List (Nat × Int × Int) :=
  (List.range n).map fun l =>
    ((dest.dims.getD l default).length, (dest.dims.getD l default).stride,
      (src.dims.getD l default).stride)

/-- Fuel bounding the number of `do/while` iterations: the traversal visits at
most the product of the outer-axis lengths positions (plus one for the
degenerate empty-product case). -/
def iterFuel (dest : NDArray) (n : Nat) : Nat :=
  ((List.range n).map fun l => (dest.dims.getD l default).length).prod + 1

/-- `ufunc_apply_binary` (reductions.h): iterate the odometer over the
`dest->dim_count - spec->layers` outer axes, invoking the kernel once per
position and accumulating `result &= kernel(…)`; returns the final
destination buffer and flag. -/
def ufunc_apply_binary (dest src1 src2 : NDArray) (layers : Nat)
    (k : BinKernel) : (Int → ℚ) × Bool :=
  let n := dest.rank - layers
  let info := layerInfo3 dest src1 src2 n
  applyBinaryLoop k info.reverse (iterFuel dest n)
    ((info.map fun t => t.1).reverse)
    (dest.base_offset, src1.base_offset, src2.base_offset) (dest.data, true)

/-- `ufunc_apply_unary` (reductions.h). -/
def ufunc_apply_unary (dest src : NDArray) (layers : Nat)
    (k : UnKernel) : (Int → ℚ) × Bool :=
  let n := dest.rank - layers
  let info := layerInfo2 dest src n
  applyUnaryLoop k info.reverse (iterFuel dest n)
    ((info.map fun t => t.1).reverse)
    (dest.base_offset, src.base_offset) (dest.data, true)

/-- The offset triples `ufunc_apply_binary` visits, kernel-independent. -/
def ufunc_traversal3 (dest src1 src2 : NDArray) (layers : Nat) :
    List (Int × Int × Int) :=
  let n := dest.rank - layers
  let info := layerInfo3 dest src1 src2 n
  traversalLoop3 info.reverse (iterFuel dest n)
    ((info.map fun t => t.1).reverse)
    (dest.base_offset, src1.base_offset, src2.base_offset)

/-- The offset pairs `ufunc_apply_unary` visits, kernel-independent. -/
def ufunc_traversal2 (dest src : NDArray) (layers : Nat) : List (Int × Int) :=
  let n := dest.rank - layers
  let info := layerInfo2 dest src n
  traversalLoop2 info.reverse (iterFuel dest n)
    ((info.map fun t => t.1).reverse)
    (dest.base_offset, src.base_offset)

lemma applyBinaryLoop_eq_foldl (k : BinKernel)
    (dimsRev : List (Nat × Int × Int × Int)) :
    ∀ (fuel : Nat) (counts : List Nat) (offs : Int × Int × Int)
      (acc : (Int → ℚ) × Bool),
      applyBinaryLoop k dimsRev fuel counts offs acc =
        (traversalLoop3 dimsRev fuel counts offs).foldl
          (fun acc offs => ((k acc.1 offs).1, acc.2 && (k acc.1 offs).2)) acc := by
  intro fuel
  induction fuel with
  | zero => intro counts offs acc; rfl
  | succ n ih =>
    intro counts offs acc
    rw [applyBinaryLoop, traversalLoop3]
    cases odoAdvance3 dimsRev counts offs with
    | none => rfl
    | some p => simpa using ih p.1 p.2 _

lemma applyUnaryLoop_eq_foldl (k : UnKernel)
    (dimsRev : List (Nat × Int × Int)) :
    ∀ (fuel : Nat) (counts : List Nat) (offs : Int × Int)
      (acc : (Int → ℚ) × Bool),
      applyUnaryLoop k dimsRev fuel counts offs acc =
        (traversalLoop2 dimsRev fuel counts offs).foldl
          (fun acc offs => ((k acc.1 offs).1, acc.2 && (k acc.1 offs).2)) acc := by
  intro fuel
  induction fuel with
  | zero => intro counts offs acc; rfl
  | succ n ih =>
    intro counts offs acc
    rw [applyUnaryLoop, traversalLoop2]
    cases odoAdvance2 dimsRev counts offs with
    | none => rfl
    | some p => simpa using ih p.1 p.2 _

/-- C2 (corrected/amended): a failing kernel invocation does NOT abort the
traversal.  Both `ufunc_apply_binary` and `ufunc_apply_unary` equal a fold of
the kernel over the full, kernel-independent sequence of traversal positions:
the kernel is invoked at every position regardless of earlier failures,
and the returned flag is the AND (`result &= …`) over all per-invocation
results, so any failure is still reported to the caller at the end. -/
theorem c2_failure_reported_but_not_aborted (dest src1 src2 usrc : NDArray)
    (layers : Nat) (k : BinKernel) (uk : UnKernel) :
    ufunc_apply_binary dest src1 src2 layers k =
        (ufunc_traversal3 dest src1 src2 layers).foldl
          (fun acc offs => ((k acc.1 offs).1, acc.2 && (k acc.1 offs).2))
          (dest.data, true) ∧
      ufunc_apply_unary dest usrc layers uk =
        (ufunc_traversal2 dest usrc layers).foldl
          (fun acc offs => ((uk acc.1 offs).1, acc.2 && (uk acc.1 offs).2))
          (dest.data, true) := by
  constructor
  · exact applyBinaryLoop_eq_foldl k _ _ _ _ _
  · exact applyUnaryLoop_eq_foldl uk _ _ _ _ _

/-- A length-2 contiguous 1-D view used by the C2 counterexample. -/
def c2arr : NDArray :=
  { typecode := UUMPY_DEFAULT_TYPE, dims := [⟨2, 1⟩], base_offset := 0,
    data := fun _ => 0 }

/-- A kernel that always fails, marking the destination position it was
invoked at with `7`. -/
def c2failKernel : BinKernel :=
  fun d offs => (Function.update d offs.1 7, false)

/-- C2 counterexample: with an always-failing kernel over a length-2
traversal, the kernel is still invoked at the second position (the
destination slot at offset 1 carries the kernel's mark) even though the first
invocation already reported failure — refuting "no kernel is invoked at any
later position"; the failure itself is reported (returned flag is false). -/
theorem c2_counterexample :
    (ufunc_apply_binary c2arr c2arr c2arr 0 c2failKernel).2 = false ∧
      (ufunc_apply_binary c2arr c2arr c2arr 0 c2failKernel).1 1 = 7 := by
  decide

/-! ## Broadcast resolver (`ndarray_broadcast`, moduumpy.c) -/

/-- The running source index of the broadcast loop: `l_index`/`r_index` start
at `dim_count - output_dim_count` and advance with the output axis `i`. -/
def lIndex (a : NDArray) (outCount i : Nat) : Int :=
  (a.rank : Int) - (outCount : Int) + (i : Int)

/-- The source axis descriptor right-aligned at output axis `i`
(`dim_info[l_index]`; only meaningful when `lIndex ≥ 0`). -/
def alignedDim (a : NDArray) (outCount i : Nat) : DimInfo :=
  a.dims.getD (lIndex a outCount i).toNat default

/-- One iteration of the broadcast loop of `ndarray_broadcast` at output axis
`i`: a missing side or a length-1 side is expanded to the other side's length
with stride 0 (and expanding the left side sets `left_touched`); equal lengths
are copied unchanged; otherwise the broadcast error is raised.  The `Bool` is
the `left_touched` contribution of this axis. -/
def bcastAxis (l r : NDArray) (n i : Nat) : Except UErr (DimInfo × DimInfo × Bool) :=
  if lIndex l n i < 0 then
    .ok (⟨(alignedDim r n i).length, 0⟩, alignedDim r n i, true)
  else if lIndex r n i < 0 then
    .ok (alignedDim l n i, ⟨(alignedDim l n i).length, 0⟩, false)
  else if (alignedDim l n i).length = (alignedDim r n i).length then
    .ok (alignedDim l n i, alignedDim r n i, false)
  else if (alignedDim l n i).length = 1 then
    .ok (⟨(alignedDim r n i).length, 0⟩, alignedDim r n i, true)
  else if (alignedDim r n i).length = 1 then
    .ok (alignedDim l n i, ⟨(alignedDim l n i).length, 0⟩, false)
  else .error .broadcastError

/-- The `for (i=0; i<output_dim_count; i++)` loop of `ndarray_broadcast`,
accumulating the two new dim lists and the `left_touched` flag. -/
def bcastLoop (l r : NDArray) (n : Nat) :
    List Nat → List DimInfo × List DimInfo × Bool →
      Except UErr (List DimInfo × List DimInfo × Bool)
  | [], acc => .ok acc
  | i :: rest, acc =>
    match bcastAxis l r n i with
    | .error e => .error e
    | .ok t => bcastLoop l r n rest (acc.1 ++ [t.1], acc.2.1 ++ [t.2.1], acc.2.2 || t.2.2)

/-- `ndarray_broadcast` (moduumpy.c): `output_dim_count = max` of the ranks,
`left_touched` starts as `output_dim_count != left.dim_count`, the loop fills
both dim lists, and two views over the unchanged buffers and base offsets are
returned together with `left_touched`. -/
def ndarray_broadcast (l r : NDArray) : Except UErr (NDArray × NDArray × Bool) :=
  let outCount := max l.rank r.rank
  match bcastLoop l r outCount (List.range outCount)
      ([], [], decide (outCount ≠ l.rank)) with
  | .error e => .error e
  | .ok acc =>
    .ok (ndarray_new_view l l.base_offset acc.1,
      ndarray_new_view r r.base_offset acc.2.1, acc.2.2)

/-- From the claim: the right-aligned left/right axis length at output axis
`i`, `none` when the operand has no axis there. -/
def alignedLen (a : NDArray) (n i : Nat) : Option Nat :=
  if lIndex a n i < 0 then none else some (alignedDim a n i).length

/-- From the claim: an aligned axis pair is compatible when either side is
absent, the lengths are equal, or one length is 1. -/
def axesCompatible (l r : NDArray) (n i : Nat) : Prop :=
  match alignedLen l n i, alignedLen r n i with
  | none, _ => True
  | _, none => True
  | some a, some b => a = b ∨ a = 1 ∨ b = 1

instance (l r : NDArray) (n i : Nat) : Decidable (axesCompatible l r n i) := by
  unfold axesCompatible
  cases alignedLen l n i <;> cases alignedLen r n i <;> dsimp only <;> infer_instance

/-- The `ok` payload of `bcastAxis` as a total function (the final branch is
never reached on compatible axes). -/
def bcastAxisVal (l r : NDArray) (n i : Nat) : DimInfo × DimInfo × Bool :=
  if lIndex l n i < 0 then
    (⟨(alignedDim r n i).length, 0⟩, alignedDim r n i, true)
  else if lIndex r n i < 0 then
    (alignedDim l n i, ⟨(alignedDim l n i).length, 0⟩, false)
  else if (alignedDim l n i).length = (alignedDim r n i).length then
    (alignedDim l n i, alignedDim r n i, false)
  else if (alignedDim l n i).length = 1 then
    (⟨(alignedDim r n i).length, 0⟩, alignedDim r n i, true)
  else if (alignedDim r n i).length = 1 then
    (alignedDim l n i, ⟨(alignedDim l n i).length, 0⟩, false)
  else (alignedDim l n i, alignedDim r n i, false)

lemma bcastAxis_eq_ok_of_compat {l r : NDArray} {n i : Nat}
    (h : axesCompatible l r n i) :
    bcastAxis l r n i = .ok (bcastAxisVal l r n i) := by
  unfold bcastAxis bcastAxisVal
  split_ifs with h1 h2 h3 h4 h5 <;> try rfl
  exfalso
  simp only [axesCompatible, alignedLen, if_neg h1, if_neg h2] at h
  rcases h with h | h | h
  · exact h3 h
  · exact h4 h
  · exact h5 h

lemma bcastAxis_eq_error_of_not_compat {l r : NDArray} {n i : Nat}
    (h : ¬ axesCompatible l r n i) :
    bcastAxis l r n i = .error .broadcastError := by
  unfold bcastAxis
  split_ifs with h1 h2 h3 h4 h5 <;> try rfl
  all_goals exfalso; apply h
  · simp [axesCompatible, alignedLen, if_pos h1]
  · simp [axesCompatible, alignedLen, if_neg h1, if_pos h2]
  · simp [axesCompatible, alignedLen, if_neg h1, if_neg h2, h3]
  · simp [axesCompatible, alignedLen, if_neg h1, if_neg h2, h4]
  · simp [axesCompatible, alignedLen, if_neg h1, if_neg h2, h5]

lemma bcastLoop_ok (l r : NDArray) (n : Nat) :
    ∀ (xs : List Nat), (∀ i ∈ xs, axesCompatible l r n i) →
      ∀ acc, bcastLoop l r n xs acc =
        .ok (acc.1 ++ xs.map (fun i => (bcastAxisVal l r n i).1),
          acc.2.1 ++ xs.map (fun i => (bcastAxisVal l r n i).2.1),
          xs.foldl (fun b i => b || (bcastAxisVal l r n i).2.2) acc.2.2) := by
  intro xs
  induction xs with
  | nil => intro _ acc; simp [bcastLoop]
  | cons x rest ih =>
    intro hc acc
    have hx := bcastAxis_eq_ok_of_compat (hc x (List.mem_cons_self x rest))
    simp only [bcastLoop, hx]
    rw [ih (fun i hi => hc i (List.mem_cons_of_mem x hi)) _]
    simp [List.append_assoc]

lemma bcastLoop_error (l r : NDArray) (n : Nat) :
    ∀ (xs : List Nat) (acc : List DimInfo × List DimInfo × Bool),
      (∃ i ∈ xs, ¬ axesCompatible l r n i) →
      bcastLoop l r n xs acc = .error .broadcastError := by
  intro xs
  induction xs with
  | nil => intro acc h; simp at h
  | cons x rest ih =>
    intro acc h
    by_cases hx : axesCompatible l r n x
    · simp only [bcastLoop]
      rw [bcastAxis_eq_ok_of_compat hx]
      apply ih
      rcases h with ⟨i, hi, hnc⟩
      rcases List.mem_cons.mp hi with rfl | hmem
      · exact absurd hx hnc
      · exact ⟨i, hmem, hnc⟩
    · simp only [bcastLoop]
      rw [bcastAxis_eq_error_of_not_compat hx]

lemma bcastAxisVal_length_eq {l r : NDArray} {n i : Nat}
    (h : axesCompatible l r n i) :
    (bcastAxisVal l r n i).1.length = (bcastAxisVal l r n i).2.1.length := by
  unfold bcastAxisVal
  split_ifs with h1 h2 h3 h4 h5 <;> try rfl
  · exact h3
  · exfalso
    simp only [axesCompatible, alignedLen, if_neg h1, if_neg h2] at h
    rcases h with h | h | h
    · exact h3 h
    · exact h4 h
    · exact h5 h

lemma bcastAxisVal_left_stride {l r : NDArray} {n i : Nat} :
    alignedLen l n i ≠ some (bcastAxisVal l r n i).1.length →
      (bcastAxisVal l r n i).1.stride = 0 := by
  unfold bcastAxisVal
  split_ifs with h1 h2 h3 h4 h5 <;> intro hne
  · rfl
  · exact absurd (by simp [alignedLen, if_neg h1]) hne
  · exact absurd (by simp [alignedLen, if_neg h1]) hne
  · rfl
  · exact absurd (by simp [alignedLen, if_neg h1]) hne
  · exact absurd (by simp [alignedLen, if_neg h1]) hne

lemma bcastAxisVal_right_stride {l r : NDArray} {n i : Nat}
    (hmax : n = max l.rank r.rank) :
    alignedLen r n i ≠ some (bcastAxisVal l r n i).2.1.length →
      (bcastAxisVal l r n i).2.1.stride = 0 := by
  unfold bcastAxisVal
  split_ifs with h1 h2 h3 h4 h5 <;> intro hne
  · exfalso
    apply hne
    have hr : ¬ lIndex r n i < 0 := by
      unfold lIndex at h1 ⊢
      omega
    simp [alignedLen, if_neg hr]
  · rfl
  · exact absurd (by simp [alignedLen, if_neg h2]) hne
  · exact absurd (by simp [alignedLen, if_neg h2]) hne
  · rfl
  · exact absurd (by simp [alignedLen, if_neg h2]) hne

lemma lIndex_self {a : NDArray} {n i : Nat} (h : a.rank = n) :
    lIndex a n i = (i : Int) := by
  unfold lIndex
  omega

lemma alignedDim_self {a : NDArray} {n i : Nat} (h : a.rank = n) :
    alignedDim a n i = a.dims.getD i default := by
  unfold alignedDim
  rw [lIndex_self h]
  simp

lemma bcastAxisVal_flag_true {l r : NDArray} {n i : Nat}
    (hln : l.rank = n) :
    (bcastAxisVal l r n i).2.2 = true →
      (bcastAxisVal l r n i).1.length ≠ (l.dims.getD i default).length := by
  unfold bcastAxisVal
  split_ifs with h1 h2 h3 h4 h5 <;> intro hflag <;> try simp at hflag
  · exfalso
    rw [lIndex_self hln] at h1
    omega
  · rw [← alignedDim_self hln]
    simp only
    intro hc
    exact h3 hc.symm

lemma bcastAxisVal_flag_false {l r : NDArray} {n i : Nat}
    (hln : l.rank = n) :
    (bcastAxisVal l r n i).2.2 = false →
      (bcastAxisVal l r n i).1.length = (l.dims.getD i default).length := by
  unfold bcastAxisVal
  split_ifs with h1 h2 h3 h4 h5 <;> intro hflag <;> try simp at hflag
  all_goals rw [← alignedDim_self hln]

lemma foldl_or_eq_any (f : Nat → Bool) :
    ∀ (xs : List Nat) (b : Bool),
      xs.foldl (fun acc i => acc || f i) b = (b || xs.any f) := by
  intro xs
  induction xs with
  | nil => intro b; simp
  | cons x rest ih => intro b; simp [ih, Bool.or_assoc]

lemma getD_map_range {α : Type} (f : Nat → α) (n i : Nat) (d : α) (h : i < n) :
    (((List.range n).map f).getD i d) = f i := by
  rw [List.getD_eq_getElem _ _ (by simpa using h)]
  simp

lemma getD_map_length (ds : List DimInfo) (i : Nat) (h : i < ds.length) :
    (ds.map DimInfo.length).getD i 0 = (ds.getD i default).length := by
  rw [List.getD_eq_getElem _ _ (by simpa using h), List.getD_eq_getElem _ _ h]
  simp

/-- C3: the broadcast contract.  For operands whose right-aligned axis pairs
are all compatible (equal, one side length 1, or one side absent),
`ndarray_broadcast` returns two views of rank `max(left.rank, right.rank)`
with identical per-axis lengths, sharing the original buffers and base
offsets without copying, where every expanded or padded axis (output length
differing from the operand's aligned length, or operand axis absent) has
stride 0; the returned flag is true exactly when the left operand's shape
needed expansion (the left view's shape differs from the left input's); and
for operands with some incompatible axis pair it fails with the broadcast
error (`ValueError("operands could not be broadcast together")`, the spec's
`BroadcastError`). -/
theorem c3_broadcast (l r : NDArray) :
    ((∀ i, i < max l.rank r.rank → axesCompatible l r (max l.rank r.rank) i) →
      ∃ lv rv t, ndarray_broadcast l r = .ok (lv, rv, t) ∧
        lv.rank = max l.rank r.rank ∧ rv.rank = max l.rank r.rank ∧
        lv.shape = rv.shape ∧
        lv.data = l.data ∧ lv.base_offset = l.base_offset ∧
        rv.data = r.data ∧ rv.base_offset = r.base_offset ∧
        (∀ i, i < max l.rank r.rank →
          alignedLen l (max l.rank r.rank) i ≠ some (lv.dims.getD i default).length →
            (lv.dims.getD i default).stride = 0) ∧
        (∀ i, i < max l.rank r.rank →
          alignedLen r (max l.rank r.rank) i ≠ some (rv.dims.getD i default).length →
            (rv.dims.getD i default).stride = 0) ∧
        (t = true ↔ lv.shape ≠ l.shape)) ∧
    ((∃ i, i < max l.rank r.rank ∧ ¬ axesCompatible l r (max l.rank r.rank) i) →
      ndarray_broadcast l r = .error .broadcastError) := by
  constructor
  · intro hcompat
    refine ⟨ndarray_new_view l l.base_offset
        ((List.range (max l.rank r.rank)).map
          (fun i => (bcastAxisVal l r (max l.rank r.rank) i).1)),
      ndarray_new_view r r.base_offset
        ((List.range (max l.rank r.rank)).map
          (fun i => (bcastAxisVal l r (max l.rank r.rank) i).2.1)),
      (List.range (max l.rank r.rank)).foldl
        (fun b i => b || (bcastAxisVal l r (max l.rank r.rank) i).2.2)
        (decide (max l.rank r.rank ≠ l.rank)), ?_, ?_, ?_, ?_, rfl, rfl, rfl, rfl,
      ?_, ?_, ?_⟩
    · simp only [ndarray_broadcast]
      rw [bcastLoop_ok l r (max l.rank r.rank) (List.range (max l.rank r.rank))
        (fun i hi => hcompat i (List.mem_range.mp hi))
        ([], [], decide (max l.rank r.rank ≠ l.rank))]
      simp
    · simp [ndarray_new_view, NDArray.rank]
    · simp [ndarray_new_view, NDArray.rank]
    · simp only [ndarray_new_view, NDArray.shape, List.map_map]
      apply List.map_congr_left
      intro i hi
      exact bcastAxisVal_length_eq (hcompat i (List.mem_range.mp hi))
    · intro i hi hne
      simp only [ndarray_new_view] at hne ⊢
      rw [getD_map_range _ _ _ _ hi] at hne ⊢
      exact bcastAxisVal_left_stride hne
    · intro i hi hne
      simp only [ndarray_new_view] at hne ⊢
      rw [getD_map_range _ _ _ _ hi] at hne ⊢
      exact bcastAxisVal_right_stride rfl hne
    · rw [foldl_or_eq_any]
      by_cases hn : max l.rank r.rank = l.rank
      · have hd : decide (max l.rank r.rank ≠ l.rank) = false := by simp [hn]
        rw [hd, Bool.false_or]
        constructor
        · intro hany heq
          obtain ⟨i, hmem, hflag⟩ := List.any_eq_true.mp hany
          have hi : i < max l.rank r.rank := List.mem_range.mp hmem
          have hpoint := congrArg (fun s => s.getD i 0) heq
          simp only [ndarray_new_view, NDArray.shape, List.map_map] at hpoint
          rw [getD_map_range _ _ _ _ hi] at hpoint
          rw [getD_map_length l.dims i (show i < l.dims.length from by
            have hrk : l.rank = l.dims.length := rfl
            omega)] at hpoint
          exact bcastAxisVal_flag_true hn.symm hflag hpoint
        · intro hne
          by_contra hnotany
          apply hne
          simp only [ndarray_new_view, NDArray.shape, List.map_map]
          apply List.ext_getElem
          · simp only [List.length_map, List.length_range]
            exact hn
          · intro i h1 h2
            rw [List.getElem_map, List.getElem_map, List.getElem_range]
            have hi : i < max l.rank r.rank := by simpa using h1
            have hflag : (bcastAxisVal l r (max l.rank r.rank) i).2.2 = false := by
              cases hft : (bcastAxisVal l r (max l.rank r.rank) i).2.2
              · rfl
              · exact absurd (List.any_eq_true.mpr
                  ⟨i, List.mem_range.mpr hi, hft⟩) hnotany
            have heq2 := bcastAxisVal_flag_false hn.symm hflag
            rw [List.getD_eq_getElem l.dims default
              (show i < l.dims.length by simpa using h2)] at heq2
            exact heq2
      · have hd : decide (max l.rank r.rank ≠ l.rank) = true := by simp [hn]
        rw [hd, Bool.true_or]
        constructor
        · intro _ heq
          have hlen := congrArg List.length heq
          simp only [ndarray_new_view, NDArray.shape, List.map_map,
            List.length_map, List.length_range] at hlen
          exact hn hlen
        · intro _
          rfl
  · rintro ⟨i, hi, hnc⟩
    simp only [ndarray_broadcast]
    rw [bcastLoop_error l r (max l.rank r.rank) (List.range (max l.rank r.rank)) _
      ⟨i, List.mem_range.mpr hi, hnc⟩]

/-- Left operand of the C3 witness: a 1-D view of length 2. -/
def c3left : NDArray :=
  { typecode := UUMPY_DEFAULT_TYPE, dims := [⟨2, 1⟩], base_offset := 0,
    data := fun _ => 0 }

/-- Right operand of the C3 witness: a 2-D view of shape `[3, 2]`. -/
def c3right : NDArray :=
  { typecode := UUMPY_DEFAULT_TYPE, dims := [⟨3, 2⟩, ⟨2, 1⟩], base_offset := 0,
    data := fun _ => 0 }

/-- Incompatible right operand of the C3 witness: a 1-D view of length 3. -/
def c3badRight : NDArray :=
  { typecode := UUMPY_DEFAULT_TYPE, dims := [⟨3, 1⟩], base_offset := 0,
    data := fun _ => 0 }

/-- C3 witness: broadcasting shape `[2]` against `[3, 2]` succeeds with all
the claimed properties, and broadcasting `[2]` against `[3]` fails with the
broadcast error. -/
theorem c3_witness :
    (∃ lv rv t, ndarray_broadcast c3left c3right = .ok (lv, rv, t) ∧
        lv.rank = max c3left.rank c3right.rank ∧
        rv.rank = max c3left.rank c3right.rank ∧
        lv.shape = rv.shape ∧
        lv.data = c3left.data ∧ lv.base_offset = c3left.base_offset ∧
        rv.data = c3right.data ∧ rv.base_offset = c3right.base_offset ∧
        (∀ i, i < max c3left.rank c3right.rank →
          alignedLen c3left (max c3left.rank c3right.rank) i
              ≠ some (lv.dims.getD i default).length →
            (lv.dims.getD i default).stride = 0) ∧
        (∀ i, i < max c3left.rank c3right.rank →
          alignedLen c3right (max c3left.rank c3right.rank) i
              ≠ some (rv.dims.getD i default).length →
            (rv.dims.getD i default).stride = 0) ∧
        (t = true ↔ lv.shape ≠ c3left.shape)) ∧
      ndarray_broadcast c3left c3badRight = .error .broadcastError :=
  ⟨(c3_broadcast c3left c3right).1 (by decide),
    (c3_broadcast c3left c3badRight).2 ⟨0, by decide, by decide⟩⟩

/-! ## Generalized contraction ("dot", `ndarray_dot_impl` in moduumpy.c, with
`ufunc_mul_acc_fallback` from the reductions source) -/

/-- The accumulation loop of `ufunc_mul_acc_fallback`: `acc` starts at 0, and
each step adds `src1[o1] * src2[o2]` (`acc = prod + acc`), advancing both
offsets by their strides. -/
def macLoop (src1 src2 : NDArray) (st1 st2 : Int) : Nat → Int → Int → ℚ → ℚ
  | 0, _, _, acc => acc
  | k + 1, o1, o2, acc =>
    macLoop src1 src2 st1 st2 k (o1 + st1) (o2 + st2)
      (src1.data o1 * src2.data o2 + acc)

/-- `ufunc_mul_acc_fallback`: check that the two contracted axis lengths
match (`ValueError("dimension mis-match")` otherwise), accumulate the products
over the contracted axes and store the result at `dest_offset`. -/
def ufunc_mul_acc_fallback (dest : Int → ℚ) (destOff : Int)
    (src1 : NDArray) (s1Off : Int) (s1Dim : Nat)
    (src2 : NDArray) (s2Off : Int) (s2Dim : Nat) : Except UErr (Int → ℚ) :=
  if (src1.dims.getD s1Dim default).length ≠ (src2.dims.getD s2Dim default).length
  then .error .dimMismatchError
  else .ok (Function.update dest destOff
    (macLoop src1 src2 (src1.dims.getD s1Dim default).stride
      (src2.dims.getD s2Dim default).stride
      (src1.dims.getD s1Dim default).length s1Off s2Off 0))

/-- Fuel-bounded iteration of a fallible step (the `for` loops of the dot
helpers, which stop early only when the multiply-accumulate primitive
raises). -/
def exceptIter {σ : Type} (step : σ → Except UErr σ) : Nat → σ → Except UErr σ
  | 0, s => .ok s
  | k + 1, s =>
    match step s with
    | .error e => .error e
    | .ok s2 => exceptIter step k s2

/-- `ndarray_dot_helper_1d`: recursion over `lhs`'s leading axes (the first
argument is `lhs.dim_count - 2 - lhs_depth`, the remaining recursion depth);
at the innermost level (`lhs_depth == lhs.dim_count - 2`) it loops over
`lhs.dims[lhs_depth]` invoking the multiply-accumulate once per position; in
both loops the destination and `lhs` offsets advance by their strides at
`lhs_depth` and the `rhs` offset is not advanced.  The loop state is
`(dest buffer, dest offset, lhs offset)`. -/
def ndarray_dot_helper_1d (lhs rhs : NDArray) (destDims : List DimInfo)
    (rhsDepth : Nat) :
    Nat → Nat → (Int → ℚ) → Int → Int → Int → Except UErr (Int → ℚ)
  | 0, lhsDepth, d, dOff, lOff, rOff =>
    Except.map (fun s => s.1)
      (exceptIter (fun s =>
          Except.map (fun d2 =>
              (d2, s.2.1 + (destDims.getD lhsDepth default).stride,
                s.2.2 + (lhs.dims.getD lhsDepth default).stride))
            (ufunc_mul_acc_fallback s.1 s.2.1 lhs s.2.2 (lhsDepth + 1)
              rhs rOff rhsDepth))
        (lhs.dims.getD lhsDepth default).length (d, dOff, lOff))
  | gap + 1, lhsDepth, d, dOff, lOff, rOff =>
    Except.map (fun s => s.1)
      (exceptIter (fun s =>
          Except.map (fun d2 =>
              (d2, s.2.1 + (destDims.getD lhsDepth default).stride,
                s.2.2 + (lhs.dims.getD lhsDepth default).stride))
            (ndarray_dot_helper_1d lhs rhs destDims rhsDepth gap (lhsDepth + 1)
              s.1 s.2.1 s.2.2 rOff))
        (destDims.getD lhsDepth default).length (d, dOff, lOff))

/-- `ndarray_dot_helper_Nd`: recursion over `rhs`'s leading axes (the first
argument is `rhs.dim_count - 2 - depth`); at the innermost level
(`depth == rhs.dim_count - 2`) it loops over `rhs.dims[depth+1]` (the result
columns), invoking `ndarray_dot_helper_1d` per column; the destination offset
advances by the stride at `dest_depth = depth + lhs.dim_count - 1` and the
`lhs` offset is not advanced.  The loop state is `(dest buffer, dest offset,
rhs offset)`. -/
def ndarray_dot_helper_Nd (lhs rhs : NDArray) (destDims : List DimInfo) :
    Nat → Nat → (Int → ℚ) → Int → Int → Int → Except UErr (Int → ℚ)
  | 0, depth, d, dOff, lOff, rOff =>
    Except.map (fun s => s.1)
      (exceptIter (fun s =>
          Except.map (fun d2 =>
              (d2, s.2.1 + (destDims.getD (depth + lhs.rank - 1) default).stride,
                s.2.2 + (rhs.dims.getD (depth + 1) default).stride))
            (ndarray_dot_helper_1d lhs rhs destDims depth (lhs.rank - 2) 0
              s.1 s.2.1 lOff s.2.2))
        (rhs.dims.getD (depth + 1) default).length (d, dOff, rOff))
  | gap + 1, depth, d, dOff, lOff, rOff =>
    Except.map (fun s => s.1)
      (exceptIter (fun s =>
          Except.map (fun d2 =>
              (d2, s.2.1 + (destDims.getD (depth + lhs.rank - 1) default).stride,
                s.2.2 + (rhs.dims.getD depth default).stride))
            (ndarray_dot_helper_Nd lhs rhs destDims gap (depth + 1)
              s.1 s.2.1 lOff s.2.2))
        (rhs.dims.getD depth default).length (d, dOff, rOff))

/-- `ndarray_compare_dimensions_counted` (moduumpy.c). -/
def ndarray_compare_dimensions_counted (a b : NDArray) (count : Nat) : Bool :=
  (List.range count).all fun i =>
    (a.dims.getD i default).length == (b.dims.getD i default).length

/-- `ndarray_compare_dimensions` (moduumpy.c). -/
def ndarray_compare_dimensions (a b : NDArray) : Bool :=
  a.rank == b.rank && ndarray_compare_dimensions_counted a b a.rank

/-- `ndarray_binary_op` at `MP_BINARY_OP_MULTIPLY` (non-reverse, not in
place): broadcast if the shapes differ, allocate the result shaped like the
left view with the stub-expanded result dtype (`type_expand` returns the left
operand's dtype), run the fallback element-wise multiply kernel through the
universal binary traversal, and unwrap a rank-0 result.  Only used by
`ndarray_dot_impl` when one operand has rank 0. -/
def ndarray_binary_mult (lhs rhs : NDArray) : Except UErr PyValue :=
  let pair :=
    if ndarray_compare_dimensions lhs rhs then Except.ok (lhs, rhs)
    else
      match ndarray_broadcast lhs rhs with
      | .error e => .error e
      | .ok (lv, rv, _) => .ok (lv, rv)
  match pair with
  | .error e => .error e
  | .ok (lv, rv) =>
    let result := ndarray_new_shaped_like lhs.typecode lv 0
    let res := ufunc_apply_binary result lv rv 0
      (fun d offs =>
        (Function.update d offs.1 (lv.data offs.2.1 * rv.data offs.2.2), true))
    if res.2 then .ok (ndarray_get_obj_or_0d { result with data := res.1 })
    else .error .binaryOpError

/-- `ndarray_dot_impl` (moduumpy.c): rank-0 operand → element-wise multiply;
both rank 1 → inner product into a fresh 0-D array; `rhs` rank 1 → sum
product over `lhs`'s last axis; otherwise generalized contraction over
`lhs`'s last axis and `rhs`'s second-to-last axis, after checking the
combined output rank against `UUMPY_MAX_DIMS` and the contracted lengths. -/
def ndarray_dot_impl (lhs rhs : NDArray) : Except UErr PyValue :=
  if lhs.rank = 0 ∨ rhs.rank = 0 then ndarray_binary_mult lhs rhs
  else
    let result_typecode :=
      if lhs.typecode = UUMPY_DEFAULT_TYPE ∨ rhs.typecode = UUMPY_DEFAULT_TYPE
      then UUMPY_DEFAULT_TYPE else 'i'
    if lhs.rank = 1 ∧ rhs.rank = 1 then
      let result := ndarray_new_0d result_typecode 0
      match ufunc_mul_acc_fallback result.data 0 lhs lhs.base_offset 0
          rhs rhs.base_offset 0 with
      | .error e => .error e
      | .ok d => .ok (.array { result with data := d })
    else if rhs.rank = 1 then
      if (lhs.dims.getD (lhs.rank - 1) default).length
          ≠ (rhs.dims.getD 0 default).length then .error .incompatibleDimsError
      else
        let result := ndarray_new_shaped_like result_typecode lhs 1
        match ndarray_dot_helper_1d lhs rhs result.dims 0 (lhs.rank - 2) 0
            result.data result.base_offset lhs.base_offset rhs.base_offset with
        | .error e => .error e
        | .ok d => .ok (.array { result with data := d })
    else
      if UUMPY_MAX_DIMS < lhs.rank + rhs.rank - 2 then .error .tooManyDimsError
      else if (lhs.dims.getD (lhs.rank - 1) default).length
          ≠ (rhs.dims.getD (rhs.rank - 2) default).length then
        .error .incompatibleDimsError
      else
        let result := ndarray_new result_typecode
          (lhs.shape.take (lhs.rank - 1) ++ rhs.shape.take (rhs.rank - 2)
            ++ [(rhs.dims.getD (rhs.rank - 1) default).length])
        match ndarray_dot_helper_Nd lhs rhs result.dims (rhs.rank - 2) 0
            result.data result.base_offset lhs.base_offset rhs.base_offset with
        | .error e => .error e
        | .ok d => .ok (.array { result with data := d })

/-- Read a result value at a multi-index (a scalar ignores the index). -/
def PyValue.read : PyValue → List Int → ℚ
  | .scalar q, _ => q
  | .array a, idx => a.get idx

/-- The shape of a result value (`none` for a plain scalar). -/
def PyValue.shapeOpt : PyValue → Option (List Nat)
  | .scalar _ => none
  | .array a => some a.shape

lemma macLoop_eq_sum (src1 src2 : NDArray) (st1 st2 : Int) :
    ∀ (k : Nat) (o1 o2 : Int) (acc : ℚ),
      macLoop src1 src2 st1 st2 k o1 o2 acc =
        acc + ∑ i ∈ Finset.range k,
          src1.data (o1 + (i : Int) * st1) * src2.data (o2 + (i : Int) * st2) := by
  intro k
  induction k with
  | zero => intro o1 o2 acc; simp [macLoop]
  | succ n ih =>
    intro o1 o2 acc
    rw [macLoop, ih, Finset.sum_range_succ']
    simp only [Nat.cast_zero, zero_mul, add_zero, Nat.cast_add, Nat.cast_one]
    have hsum : (∑ i ∈ Finset.range n,
        src1.data (o1 + ((i : Int) + 1) * st1)
          * src2.data (o2 + ((i : Int) + 1) * st2))
        = ∑ i ∈ Finset.range n,
            src1.data (o1 + st1 + (i : Int) * st1)
              * src2.data (o2 + st2 + (i : Int) * st2) := by
      apply Finset.sum_congr rfl
      intro i _
      rw [show o1 + ((i : Int) + 1) * st1 = o1 + st1 + (i : Int) * st1 by ring,
        show o2 + ((i : Int) + 1) * st2 = o2 + st2 + (i : Int) * st2 by ring]
    rw [hsum]
    ring

/-- C6: for rank-1 operands of equal length `n`, `dot` produces a fresh 0-D
result whose single element is the inner product `Σ_{i<n} lhs[i]·rhs[i]`;
concretely `dot([1,2,3],[4,5,6]) = 32`. -/
theorem c6_dot_inner_product (lhs rhs : NDArray)
    (h1 : lhs.rank = 1) (h2 : rhs.rank = 1)
    (hlen : (lhs.dims.getD 0 default).length = (rhs.dims.getD 0 default).length) :
    (ndarray_dot_impl lhs rhs).map (fun v => (PyValue.shapeOpt v, PyValue.read v []))
      = .ok (some [], ∑ i ∈ Finset.range (lhs.dims.getD 0 default).length,
          lhs.data (lhs.base_offset + (i : Int) * (lhs.dims.getD 0 default).stride)
            * rhs.data (rhs.base_offset + (i : Int) * (rhs.dims.getD 0 default).stride)) := by
  simp only [ndarray_dot_impl]
  rw [if_neg (by omega), if_pos ⟨h1, h2⟩]
  simp only [ufunc_mul_acc_fallback]
  rw [if_neg (fun hc => hc hlen)]
  simp only [Except.map, PyValue.shapeOpt, PyValue.read, NDArray.get,
    ndarray_new_0d, NDArray.shape, dimsOffset, List.map_nil]
  rw [macLoop_eq_sum, zero_add]
  simp

/-- The concrete left operand `[1,2,3]` of the C6 witness. -/
def c6lhs : NDArray :=
  { typecode := UUMPY_DEFAULT_TYPE, dims := [⟨3, 1⟩], base_offset := 0,
    data := fun i => ([1, 2, 3] : List ℚ).getD i.toNat 0 }

/-- The concrete right operand `[4,5,6]` of the C6 witness. -/
def c6rhs : NDArray :=
  { typecode := UUMPY_DEFAULT_TYPE, dims := [⟨3, 1⟩], base_offset := 0,
    data := fun i => ([4, 5, 6] : List ℚ).getD i.toNat 0 }

/-- C6 witness: `dot([1,2,3],[4,5,6])` is a 0-D result holding `32`. -/
theorem c6_witness :
    (ndarray_dot_impl c6lhs c6rhs).map
        (fun v => (PyValue.shapeOpt v, PyValue.read v [])) = .ok (some [], 32) :=
  (c6_dot_inner_product c6lhs c6rhs rfl rfl rfl).trans (by decide)

lemma exceptIter_ok {σ : Type} (step : σ → Except UErr σ)
    (h : ∀ s, ∃ s2, step s = .ok s2) :
    ∀ (k : Nat) (s : σ), ∃ s2, exceptIter step k s = .ok s2 := by
  intro k
  induction k with
  | zero => intro s; exact ⟨s, rfl⟩
  | succ n ih =>
    intro s
    obtain ⟨s2, hs⟩ := h s
    rw [exceptIter, hs]
    exact ih s2

lemma mul_acc_ok (dest : Int → ℚ) (destOff : Int)
    (src1 : NDArray) (s1Off : Int) (s1Dim : Nat)
    (src2 : NDArray) (s2Off : Int) (s2Dim : Nat)
    (h : (src1.dims.getD s1Dim default).length
      = (src2.dims.getD s2Dim default).length) :
    ∃ d2, ufunc_mul_acc_fallback dest destOff src1 s1Off s1Dim
      src2 s2Off s2Dim = .ok d2 := by
  unfold ufunc_mul_acc_fallback
  rw [if_neg (fun hc => hc h)]
  exact ⟨_, rfl⟩

lemma helper_1d_ok (lhs rhs : NDArray) (destDims : List DimInfo) (rhsDepth : Nat) :
    ∀ (gap lhsDepth : Nat),
      (lhs.dims.getD (gap + lhsDepth + 1) default).length
          = (rhs.dims.getD rhsDepth default).length →
      ∀ (d : Int → ℚ) (dOff lOff rOff : Int),
        ∃ d2, ndarray_dot_helper_1d lhs rhs destDims rhsDepth gap lhsDepth
          d dOff lOff rOff = .ok d2 := by
  intro gap
  induction gap with
  | zero =>
    intro lhsDepth hlen d dOff lOff rOff
    rw [ndarray_dot_helper_1d]
    obtain ⟨s2, hs⟩ := exceptIter_ok
      (fun s =>
        Except.map (fun d2 =>
            (d2, s.2.1 + (destDims.getD lhsDepth default).stride,
              s.2.2 + (lhs.dims.getD lhsDepth default).stride))
          (ufunc_mul_acc_fallback s.1 s.2.1 lhs s.2.2 (lhsDepth + 1)
            rhs rOff rhsDepth))
      (fun s => by
        obtain ⟨d2, hd2⟩ := mul_acc_ok s.1 s.2.1 lhs s.2.2 (lhsDepth + 1)
          rhs rOff rhsDepth (by
            have hidx : 0 + lhsDepth + 1 = lhsDepth + 1 := by omega
            rw [← hidx]
            exact hlen)
        exact ⟨_, by dsimp only; rw [hd2]; rfl⟩)
      (lhs.dims.getD lhsDepth default).length (d, dOff, lOff)
    rw [hs]
    exact ⟨s2.1, rfl⟩
  | succ n ih =>
    intro lhsDepth hlen d dOff lOff rOff
    rw [ndarray_dot_helper_1d]
    obtain ⟨s2, hs⟩ := exceptIter_ok
      (fun s =>
        Except.map (fun d2 =>
            (d2, s.2.1 + (destDims.getD lhsDepth default).stride,
              s.2.2 + (lhs.dims.getD lhsDepth default).stride))
          (ndarray_dot_helper_1d lhs rhs destDims rhsDepth n (lhsDepth + 1)
            s.1 s.2.1 s.2.2 rOff))
      (fun s => by
        obtain ⟨d2, hd2⟩ := ih (lhsDepth + 1) (by
            have hidx : n + (lhsDepth + 1) + 1 = n + 1 + lhsDepth + 1 := by omega
            rw [hidx]
            exact hlen) s.1 s.2.1 s.2.2 rOff
        exact ⟨_, by dsimp only; rw [hd2]; rfl⟩)
      (destDims.getD lhsDepth default).length (d, dOff, lOff)
    rw [hs]
    exact ⟨s2.1, rfl⟩

lemma helper_Nd_ok (lhs rhs : NDArray) (destDims : List DimInfo) :
    ∀ (gap depth : Nat),
      (lhs.dims.getD (lhs.rank - 2 + 0 + 1) default).length
          = (rhs.dims.getD (gap + depth) default).length →
      ∀ (d : Int → ℚ) (dOff lOff rOff : Int),
        ∃ d2, ndarray_dot_helper_Nd lhs rhs destDims gap depth
          d dOff lOff rOff = .ok d2 := by
  intro gap
  induction gap with
  | zero =>
    intro depth hlen d dOff lOff rOff
    rw [ndarray_dot_helper_Nd]
    obtain ⟨s2, hs⟩ := exceptIter_ok
      (fun s =>
        Except.map (fun d2 =>
            (d2, s.2.1 + (destDims.getD (depth + lhs.rank - 1) default).stride,
              s.2.2 + (rhs.dims.getD (depth + 1) default).stride))
          (ndarray_dot_helper_1d lhs rhs destDims depth (lhs.rank - 2) 0
            s.1 s.2.1 lOff s.2.2))
      (fun s => by
        obtain ⟨d2, hd2⟩ := helper_1d_ok lhs rhs destDims depth
          (lhs.rank - 2) 0 (by
            have hidx : (0 : Nat) + depth = depth := by omega
            rw [hidx] at hlen
            exact hlen) s.1 s.2.1 lOff s.2.2
        exact ⟨_, by dsimp only; rw [hd2]; rfl⟩)
      (rhs.dims.getD (depth + 1) default).length (d, dOff, rOff)
    rw [hs]
    exact ⟨s2.1, rfl⟩
  | succ n ih =>
    intro depth hlen d dOff lOff rOff
    rw [ndarray_dot_helper_Nd]
    obtain ⟨s2, hs⟩ := exceptIter_ok
      (fun s =>
        Except.map (fun d2 =>
            (d2, s.2.1 + (destDims.getD (depth + lhs.rank - 1) default).stride,
              s.2.2 + (rhs.dims.getD depth default).stride))
          (ndarray_dot_helper_Nd lhs rhs destDims n (depth + 1)
            s.1 s.2.1 lOff s.2.2))
      (fun s => by
        obtain ⟨d2, hd2⟩ := ih (depth + 1) (by
            have hidx : n + (depth + 1) = n + 1 + depth := by omega
            rw [hidx]
            exact hlen) s.1 s.2.1 lOff s.2.2
        exact ⟨_, by dsimp only; rw [hd2]; rfl⟩)
      (rhs.dims.getD depth default).length (d, dOff, rOff)
    rw [hs]
    exact ⟨s2.1, rfl⟩

lemma rowMajorDims_lengths (shape : List Nat) :
    ((rowMajorDims shape).1).map DimInfo.length = shape := by
  induction shape with
  | nil => rfl
  | cons x rest ih => simp [rowMajorDims, ih]

/-- C7: for operands both of rank ≥ 2, `dot` contracts `lhs`'s last axis
against `rhs`'s second-to-last axis: it fails with the dimension error when
the combined output rank `lhs.rank + rhs.rank - 2` exceeds `MAX_DIMS = 8`
(`ValueError("result has too many dimensions")`) or when the two contracted
axis lengths differ (`ValueError("incompatible dimensions")`), and otherwise
succeeds with a result of shape
`lhs.shape[:-1] ++ rhs.shape[:-2] ++ rhs.shape[-1:]`. -/
theorem c7_dot_contraction (lhs rhs : NDArray)
    (hl : 2 ≤ lhs.rank) (hr : 2 ≤ rhs.rank) :
    (UUMPY_MAX_DIMS < lhs.rank + rhs.rank - 2 →
      ndarray_dot_impl lhs rhs = .error .tooManyDimsError) ∧
    (lhs.rank + rhs.rank - 2 ≤ UUMPY_MAX_DIMS →
      (lhs.dims.getD (lhs.rank - 1) default).length
          ≠ (rhs.dims.getD (rhs.rank - 2) default).length →
      ndarray_dot_impl lhs rhs = .error .incompatibleDimsError) ∧
    (lhs.rank + rhs.rank - 2 ≤ UUMPY_MAX_DIMS →
      (lhs.dims.getD (lhs.rank - 1) default).length
          = (rhs.dims.getD (rhs.rank - 2) default).length →
      (ndarray_dot_impl lhs rhs).map PyValue.shapeOpt
        = .ok (some (lhs.shape.take (lhs.rank - 1) ++ rhs.shape.take (rhs.rank - 2)
            ++ [(rhs.dims.getD (rhs.rank - 1) default).length]))) := by
  have hnot0 : ¬ (lhs.rank = 0 ∨ rhs.rank = 0) := by omega
  have hnot11 : ¬ (lhs.rank = 1 ∧ rhs.rank = 1) := by
    rintro ⟨ha, _⟩; omega
  have hnotr1 : ¬ (rhs.rank = 1) := by omega
  refine ⟨fun hbig => ?_, fun hsmall hne => ?_, fun hsmall heq => ?_⟩
  · simp only [ndarray_dot_impl]
    rw [if_neg hnot0, if_neg hnot11, if_neg hnotr1, if_pos hbig]
  · simp only [ndarray_dot_impl]
    rw [if_neg hnot0, if_neg hnot11, if_neg hnotr1,
      if_neg (by omega : ¬ UUMPY_MAX_DIMS < lhs.rank + rhs.rank - 2),
      if_pos hne]
  · simp only [ndarray_dot_impl]
    rw [if_neg hnot0, if_neg hnot11, if_neg hnotr1,
      if_neg (by omega : ¬ UUMPY_MAX_DIMS < lhs.rank + rhs.rank - 2),
      if_neg (fun hc => hc heq)]
    obtain ⟨d2, hd2⟩ := helper_Nd_ok lhs rhs
      (ndarray_new
        (if lhs.typecode = UUMPY_DEFAULT_TYPE ∨ rhs.typecode = UUMPY_DEFAULT_TYPE
          then UUMPY_DEFAULT_TYPE else 'i')
        (lhs.shape.take (lhs.rank - 1) ++ rhs.shape.take (rhs.rank - 2)
          ++ [(rhs.dims.getD (rhs.rank - 1) default).length])).dims
      (rhs.rank - 2) 0 (by
        have hidx1 : lhs.rank - 2 + 0 + 1 = lhs.rank - 1 := by omega
        have hidx2 : rhs.rank - 2 + 0 = rhs.rank - 2 := by omega
        rw [hidx1, hidx2]
        exact heq)
      (ndarray_new
        (if lhs.typecode = UUMPY_DEFAULT_TYPE ∨ rhs.typecode = UUMPY_DEFAULT_TYPE
          then UUMPY_DEFAULT_TYPE else 'i')
        (lhs.shape.take (lhs.rank - 1) ++ rhs.shape.take (rhs.rank - 2)
          ++ [(rhs.dims.getD (rhs.rank - 1) default).length])).data
      (ndarray_new
        (if lhs.typecode = UUMPY_DEFAULT_TYPE ∨ rhs.typecode = UUMPY_DEFAULT_TYPE
          then UUMPY_DEFAULT_TYPE else 'i')
        (lhs.shape.take (lhs.rank - 1) ++ rhs.shape.take (rhs.rank - 2)
          ++ [(rhs.dims.getD (rhs.rank - 1) default).length])).base_offset
      lhs.base_offset rhs.base_offset
    rw [hd2]
    simp only [Except.map, PyValue.shapeOpt, NDArray.shape, ndarray_new]
    rw [rowMajorDims_lengths]

/-- Concrete `2 × 3` left operand for the C7 witness. -/
def c7lhs : NDArray :=
  { typecode := UUMPY_DEFAULT_TYPE, dims := [⟨2, 3⟩, ⟨3, 1⟩], base_offset := 0,
    data := fun i => ([1, 2, 3, 4, 5, 6] : List ℚ).getD i.toNat 0 }

/-- Concrete `3 × 2` right operand for the C7 witness. -/
def c7rhs : NDArray :=
  { typecode := UUMPY_DEFAULT_TYPE, dims := [⟨3, 2⟩, ⟨2, 1⟩], base_offset := 0,
    data := fun i => ([1, 0, 0, 1, 1, 1] : List ℚ).getD i.toNat 0 }

/-- Concrete `2 × 2` operand whose contraction with `c7lhs` mismatches. -/
def c7bad : NDArray :=
  { typecode := UUMPY_DEFAULT_TYPE, dims := [⟨2, 2⟩, ⟨2, 1⟩], base_offset := 0,
    data := fun _ => 0 }

/-- Concrete rank-5 operand of shape `[1,1,1,1,2]` for the C7 rank check. -/
def c7big1 : NDArray :=
  { typecode := UUMPY_DEFAULT_TYPE,
    dims := [⟨1, 2⟩, ⟨1, 2⟩, ⟨1, 2⟩, ⟨1, 2⟩, ⟨2, 1⟩], base_offset := 0,
    data := fun _ => 0 }

/-- Concrete rank-6 operand of shape `[1,1,1,1,2,1]` for the C7 rank check. -/
def c7big2 : NDArray :=
  { typecode := UUMPY_DEFAULT_TYPE,
    dims := [⟨1, 2⟩, ⟨1, 2⟩, ⟨1, 2⟩, ⟨1, 2⟩, ⟨2, 1⟩, ⟨1, 1⟩], base_offset := 0,
    data := fun _ => 0 }

/-- C7 witness: a `2×3 · 3×2` contraction succeeds with shape `[2,2]`;
contracting `2×3` against `2×2` fails with the incompatible-dimensions
error; contracting rank 5 against rank 6 (output rank 9 > 8) fails with the
too-many-dimensions error. -/
theorem c7_witness :
    (ndarray_dot_impl c7lhs c7rhs).map PyValue.shapeOpt = .ok (some [2, 2]) ∧
      ndarray_dot_impl c7lhs c7bad = .error .incompatibleDimsError ∧
      ndarray_dot_impl c7big1 c7big2 = .error .tooManyDimsError := by
  refine ⟨((c7_dot_contraction c7lhs c7rhs (by decide) (by decide)).2.2
      (by decide) (by decide)).trans (by decide),
    (c7_dot_contraction c7lhs c7bad (by decide) (by decide)).2.1
      (by decide) (by decide),
    (c7_dot_contraction c7big1 c7big2 (by decide) (by decide)).1 (by decide)⟩

/-! ## Reduction engine (reductions source: `uumpy_reduction_*`) -/

/-- `UUMPY_REDUCTION_FLAG_BOOL_OUT`. -/
def UUMPY_REDUCTION_FLAG_BOOL_OUT : Nat := 0x100

/-- `UUMPY_REDUCTION_FLAG_INT_OUT`. -/
def UUMPY_REDUCTION_FLAG_INT_OUT : Nat := 0x200

/-- `UUMPY_REDUCTION_FLAG_FLOAT_COMPLEX_OUT`. -/
def UUMPY_REDUCTION_FLAG_FLOAT_COMPLEX_OUT : Nat := 0x400

/-- `UUMPY_REDUCTION_FLAG_1D_ONLY`. -/
def UUMPY_REDUCTION_FLAG_1D_ONLY : Nat := 0x1000

/-- `UUMPY_REDUCTION_OP_MAX`. -/
def UUMPY_REDUCTION_OP_MAX : Nat := 0

/-- `UUMPY_REDUCTION_OP_MIN`. -/
def UUMPY_REDUCTION_OP_MIN : Nat := 1

/-- `UUMPY_REDUCTION_OP_SUM`. -/
def UUMPY_REDUCTION_OP_SUM : Nat := 2

/-- `UUMPY_REDUCTION_OP_PROD`. -/
def UUMPY_REDUCTION_OP_PROD : Nat := 3

/-- `UUMPY_REDUCTION_OP_AVERAGE`. -/
def UUMPY_REDUCTION_OP_AVERAGE : Nat := 4

/-- `UUMPY_REDUCTION_OP_STD`. -/
def UUMPY_REDUCTION_OP_STD : Nat := 5

/-- `UUMPY_REDUCTION_OP_ANY = 6 | BOOL_OUT`. -/
def UUMPY_REDUCTION_OP_ANY : Nat := 6 ||| UUMPY_REDUCTION_FLAG_BOOL_OUT

/-- `UUMPY_REDUCTION_OP_ALL = 7 | BOOL_OUT`. -/
def UUMPY_REDUCTION_OP_ALL : Nat := 7 ||| UUMPY_REDUCTION_FLAG_BOOL_OUT

/-- `UUMPY_REDUCTION_OP_ARGMAX = 8 | 1D_ONLY | INT_OUT`. -/
def UUMPY_REDUCTION_OP_ARGMAX : Nat :=
  8 ||| UUMPY_REDUCTION_FLAG_1D_ONLY ||| UUMPY_REDUCTION_FLAG_INT_OUT

/-- `UUMPY_REDUCTION_OP_ARGMIN = 9 | 1D_ONLY | INT_OUT`. -/
def UUMPY_REDUCTION_OP_ARGMIN : Nat :=
  9 ||| UUMPY_REDUCTION_FLAG_1D_ONLY ||| UUMPY_REDUCTION_FLAG_INT_OUT

/-- A `uumpy_reduction_spec` in the ℚ state model: the `init_func` is either
`NULL` (`none`, max/min: the `is_first` protocol initializes the state) or a
starting value; `iter_func` folds one source element into the state
(receiving `is_first`); `finish_func` turns state and element count into the
stored result. -/
structure ReductionSpecF where
  init_func : Option ℚ
  iter_func : ℚ → ℚ → Bool → ℚ
  finish_func : ℚ → Nat → ℚ

/-- `uumpy_reduction_max_float_op`: keep the larger of state and element,
unconditionally taking the first element. -/
def uumpy_reduction_max_float_op : ℚ → ℚ → Bool → ℚ :=
  fun st v first => if st < v ∨ first then v else st

/-- `uumpy_reduction_min_float_op`. -/
def uumpy_reduction_min_float_op : ℚ → ℚ → Bool → ℚ :=
  fun st v first => if v < st ∨ first then v else st

/-- `uumpy_reduction_sum_float_op`: `state += element`. -/
def uumpy_reduction_sum_float_op : ℚ → ℚ → Bool → ℚ := fun st v _ => st + v

/-- `uumpy_reduction_prod_float_op`: `state *= element`. -/
def uumpy_reduction_prod_float_op : ℚ → ℚ → Bool → ℚ := fun st v _ => st * v

/-- `uumpy_reduction_max_obj_op`: the non-fast-path max kernel — its C body
is EMPTY, so the state is returned unchanged. -/
def uumpy_reduction_max_obj_op : ℚ → ℚ → Bool → ℚ := fun st _ _ => st

/-- `uumpy_reduction_min_obj_op`: the non-fast-path min kernel — its C body
is EMPTY, so the state is returned unchanged. -/
def uumpy_reduction_min_obj_op : ℚ → ℚ → Bool → ℚ := fun st _ _ => st

/-- The plain store finishers (`uumpy_reduction_finish_store_*`): write the
state, ignore the count. -/
def uumpy_reduction_finish_store : ℚ → Nat → ℚ := fun st _ => st

/-- `uumpy_reduction_finish_average_float`: divide the accumulated sum by the
element count. -/
def uumpy_reduction_finish_average_float : ℚ → Nat → ℚ :=
  fun st count => st / count

/-- The `UUMP_REDUCTION_FASTPATH_NONE` switch of
`uumpy_reduction_find_unary_spec`.  In the C source only `MAX` and `MIN`
`break` out of it (selecting the EMPTY object kernels); the `SUM`, `PROD`,
`AVERAGE`, `ANY` and `ALL` cases each assign an `init_func` and then FALL
THROUGH (no `break`) into `ARGMAX`/`ARGMIN`/`STD`/`default`, which
`return false` — reported to the caller as "no reduction function for data
type". -/
def uumpy_reduction_no_fastpath (opCode : Nat) (result_typecode : Char) :
    Option (Char × ReductionSpecF) :=
  if opCode = UUMPY_REDUCTION_OP_MAX then
    some (result_typecode,
      ⟨none, uumpy_reduction_max_obj_op, uumpy_reduction_finish_store⟩)
  else if opCode = UUMPY_REDUCTION_OP_MIN then
    some (result_typecode,
      ⟨none, uumpy_reduction_min_obj_op, uumpy_reduction_finish_store⟩)
  else none

/-- `uumpy_reduction_find_unary_spec`: compute the result dtype from the op
flags, try the float fast path when the source has the default float dtype
and the destination (if any) matches the result dtype.  In the fast-path
switch `MAX`/`MIN`/`SUM`/`PROD`/`AVERAGE` `break` with their float kernels;
the `ANY` and `ALL` cases assign an `init_func` and FALL THROUGH (no
`break`) into `ARGMAX`/`ARGMIN`/`STD`/`default`, which abandon the fast path,
after which the no-fast-path switch falls through to `return false` for
them.  `none` models `return false` (the caller raises
`NotImplementedError`). -/
def uumpy_reduction_find_unary_spec (opCode : Nat) (srcType : Char)
    (destType : Option Char) : Option (Char × ReductionSpecF) :=
  let result_typecode : Char :=
    if opCode &&& UUMPY_REDUCTION_FLAG_BOOL_OUT ≠ 0 then 'B'
    else if opCode &&& UUMPY_REDUCTION_FLAG_INT_OUT ≠ 0 then 'i'
    else if opCode &&& UUMPY_REDUCTION_FLAG_FLOAT_COMPLEX_OUT ≠ 0 then
      UUMPY_DEFAULT_TYPE
    else srcType
  if srcType = UUMPY_DEFAULT_TYPE
      ∧ (destType = none ∨ destType = some result_typecode) then
    if opCode = UUMPY_REDUCTION_OP_MAX then
      some (result_typecode,
        ⟨none, uumpy_reduction_max_float_op, uumpy_reduction_finish_store⟩)
    else if opCode = UUMPY_REDUCTION_OP_MIN then
      some (result_typecode,
        ⟨none, uumpy_reduction_min_float_op, uumpy_reduction_finish_store⟩)
    else if opCode = UUMPY_REDUCTION_OP_SUM then
      some (result_typecode,
        ⟨some 0, uumpy_reduction_sum_float_op, uumpy_reduction_finish_store⟩)
    else if opCode = UUMPY_REDUCTION_OP_PROD then
      some (result_typecode,
        ⟨some 1, uumpy_reduction_prod_float_op, uumpy_reduction_finish_store⟩)
    else if opCode = UUMPY_REDUCTION_OP_AVERAGE then
      some (result_typecode,
        ⟨some 0, uumpy_reduction_sum_float_op,
          uumpy_reduction_finish_average_float⟩)
    else uumpy_reduction_no_fastpath opCode result_typecode
  else uumpy_reduction_no_fastpath opCode result_typecode

/-- The single-reduced-axis inner loop of `ufunc_apply_reduction_unary`
(`reduce_dim_count == 1`): fold the kernel over the axis, `is_first` true
only for the first element. -/
def reduceIter1 (src : NDArray) (stride : Int) (iterF : ℚ → ℚ → Bool → ℚ) :
    Nat → Int → ℚ → Bool → ℚ
  | 0, _, st, _ => st
  | k + 1, off, st, first =>
    reduceIter1 src stride iterF k (off + stride) (iterF st (src.data off) first)
      false

/-- The carry step of the multi-axis reduction odometer
(`src_indices[l]++` counting up to the axis length, innermost-first
records `(length, stride)`). -/
def redAdvance : List (Nat × Int) → List Nat → Int → Option (List Nat × Int)
  | [], _, _ => none
  | _, [], _ => none
  | (len, st) :: restD, ix :: restI, off =>
    let off := off + st
    let ix := ix + 1
    if ix < len then some (ix :: restI, off)
    else
      match redAdvance restD restI (off - (len : Int) * st) with
      | none => none
      | some p => some (0 :: p.1, p.2)

/-- The multi-axis `do/while` loop of `ufunc_apply_reduction_unary`: apply
the kernel, count the element, advance the odometer. -/
def redLoop (src : NDArray) (iterF : ℚ → ℚ → Bool → ℚ)
    (dimsRev : List (Nat × Int)) :
    Nat → List Nat → Int → ℚ → Bool → Nat → ℚ × Nat
  | 0, _, _, st, _, count => (st, count)
  | fuel + 1, idxs, off, st, first, count =>
    let st2 := iterF st (src.data off) first
    match redAdvance dimsRev idxs off with
    | none => (st2, count + 1)
    | some p => redLoop src iterF dimsRev fuel p.1 p.2 st2 false (count + 1)

/-- `ufunc_apply_reduction_unary` as a kernel for `ufunc_apply_unary`: run
`init_func` (`NULL` init modelled as an arbitrary starting state `0`,
overwritten through the `is_first` protocol), iterate the reduction kernel
over all axes of `src` beyond `depth` in row-major order, then store
`finish_func state count` at the destination offset; always succeeds. -/
def ufunc_apply_reduction_unary (src : NDArray) (depth : Nat)
    (rspec : ReductionSpecF) : UnKernel :=
  fun ddata offs =>
    let rdims := src.dims.drop depth
    let st0 := rspec.init_func.getD 0
    let res :=
      if rdims.length = 1 then
        (reduceIter1 src (rdims.getD 0 default).stride rspec.iter_func
          (rdims.getD 0 default).length offs.2 st0 true,
          (rdims.getD 0 default).length)
      else
        redLoop src rspec.iter_func
          ((rdims.map fun d => (d.length, d.stride)).reverse)
          ((rdims.map DimInfo.length).prod + 1)
          (rdims.map fun _ => 0) offs.2 st0 true 0
    (Function.update ddata offs.1 (rspec.finish_func res.1 res.2), true)

/-- The `axis` argument of a reduction: `None`, a small int, or a tuple. -/
inductive Axis where
  | noneA
  | intA (i : Int)
  | tupleA (is : List Int)

/-- Whether the axis argument is a tuple (the `1D_ONLY` check). -/
def Axis.isTuple : Axis → Bool
  | .tupleA _ => true
  | _ => false

/-- The axis-selection step of `uumpy_reduction_generic` for an int or tuple
axis: reject an empty tuple, normalize negative indices, range-check, reject
duplicates (the C bitmask), and, unless the chosen axes are already the
trailing axes in order, build a permuted view with all kept axes first and
the reduced axes appended in argument order.  NOTE (faithful to the source):
the appended reduced axes use the RAW argument values
(`MP_OBJ_SMALL_INT_VALUE(values[i])`), not the negativity-normalized index. -/
def uumpy_reduction_axis_step (rank : Nat) (acc : List Nat) (v : Int) :
    Except UErr (List Nat) :=
  let a := if v < 0 then v + (rank : Int) else v
  if a < 0 ∨ (rank : Int) ≤ a then .error .axisRangeError
  else if acc.contains a.toNat then .error .axisDupError
  else .ok (acc ++ [a.toNat])

/-- The axis validation loop of `uumpy_reduction_generic` (see
`uumpy_reduction_axis_step`) followed by the trailing-axes test and, when
needed, the construction of the permuted view. -/
def uumpy_reduction_resolve_axis (src : NDArray) (values : List Int) :
    Except UErr (NDArray × Nat) :=
  if values.length = 0 then .error .axisEmptyError
  else
    match values.foldlM (uumpy_reduction_axis_step src.rank) ([] : List Nat) with
    | .error e => .error e
    | .ok norm =>
      let onlyTrailing := (List.range values.length).all fun i =>
        norm.getD i 0 == src.rank - values.length + i
      if onlyTrailing then .ok (src, values.length)
      else
        let kept := (List.range src.rank).filter fun i => ! norm.contains i
        let newDims := kept.map (fun i => src.dims.getD i default)
          ++ values.map fun v => src.dims.getD v.toNat default
        .ok (ndarray_new_view src src.base_offset newDims, values.length)

/-- `uumpy_reduction_generic`: resolve the axes (possibly permuting the
reduced axes to the end), validate a supplied destination's rank and leading
lengths (else `ValueError`) or allocate one shaped like the source minus the
reduced trailing axes, run the reduction kernel through the universal unary
traversal, and return the destination — unwrapped to a plain scalar when it
has rank 0. -/
def uumpy_reduction_generic (src : NDArray) (dest? : Option NDArray)
    (axis : Axis) (result_typecode : Char) (rspec : ReductionSpecF) :
    Except UErr PyValue :=
  let step1 : Except UErr (NDArray × Nat) :=
    match axis with
    | .noneA => .ok (src, src.rank)
    | .intA i => uumpy_reduction_resolve_axis src [i]
    | .tupleA vs => uumpy_reduction_resolve_axis src vs
  match step1 with
  | .error e => .error e
  | .ok (src2, reduceLayers) =>
    let step2 : Except UErr NDArray :=
      match dest? with
      | some dest =>
        if dest.rank ≠ src2.rank - reduceLayers
            ∨ ¬ ndarray_compare_dimensions_counted src2 dest dest.rank then
          .error .destShapeError
        else .ok dest
      | none => .ok (ndarray_new_shaped_like result_typecode src2 reduceLayers)
    match step2 with
    | .error e => .error e
    | .ok dest =>
      let res := ufunc_apply_unary dest src2 0
        (ufunc_apply_reduction_unary src2 dest.rank rspec)
      .ok (uumpy_reduction_return { dest with data := res.1 })

/-- `uumpy_reduction_helper_1`: reject a tuple axis for `1D_ONLY` ops, look
up the reduction spec (`NotImplementedError("no reduction function for data
type")` when the lookup returns false), reject `keepdims`
(`NotImplementedError`), then run the generic reduction. -/
def uumpy_reduction_helper_1 (opCode : Nat) (a : NDArray) (axis : Axis)
    (out? : Option NDArray) (keepdims : Bool) : Except UErr PyValue :=
  if opCode &&& UUMPY_REDUCTION_FLAG_1D_ONLY ≠ 0 ∧ axis.isTuple then
    .error .axisTupleError
  else
    match uumpy_reduction_find_unary_spec opCode a.typecode
        (out?.map NDArray.typecode) with
    | none => .error .notImplementedError
    | some (rt, rspec) =>
      if keepdims then .error .keepdimsError
      else uumpy_reduction_generic a out? axis rt rspec

/-- `sum(a, axis)` with no explicit destination and `keepdims=false`. -/
def uumpy_sum (a : NDArray) (axis : Axis) : Except UErr PyValue :=
  uumpy_reduction_helper_1 UUMPY_REDUCTION_OP_SUM a axis none false

/-- `all(a)` with no axis argument, no destination, `keepdims=false`. -/
def uumpy_all (a : NDArray) : Except UErr PyValue :=
  uumpy_reduction_helper_1 UUMPY_REDUCTION_OP_ALL a .noneA none false

/-- The concrete `[[1,2],[3,4]]` default-float array of C4. -/
def c4A : NDArray :=
  { typecode := UUMPY_DEFAULT_TYPE, dims := [⟨2, 2⟩, ⟨2, 1⟩], base_offset := 0,
    data := fun i => ([1, 2, 3, 4] : List ℚ).getD i.toNat 0 }

/-- C4: on `[[1,2],[3,4]]`, `sum` with `axis=0` (a non-trailing axis, so the
kept axis is permuted to the front first) returns the 1-D array `[4, 6]`,
and `sum` with `axis=1` returns the 1-D array `[3, 7]`; both accumulate from
a starting value of 0 in row-major order over the reduced axis. -/
theorem c4_sum_axis_examples :
    (uumpy_sum c4A (.intA 0)).map
        (fun v => (v.shapeOpt, v.read [0], v.read [1])) = .ok (some [2], 4, 6) ∧
      (uumpy_sum c4A (.intA 1)).map
        (fun v => (v.shapeOpt, v.read [0], v.read [1])) = .ok (some [2], 3, 7) := by
  constructor
  · decide
  · decide

/-- C8 (code bug): `all(A)` never reduces anything — for every input array it
raises `NotImplementedError("no reduction function for data type")`, because
in `uumpy_reduction_find_unary_spec` the `ALL` case of the float fast-path
switch falls through to `default:` (abandoning the fast path) and the `ALL`
case of the no-fast-path switch falls through to `return false`. -/
theorem c8_all_raises_not_implemented (a : NDArray) :
    uumpy_all a = .error .notImplementedError := by
  unfold uumpy_all uumpy_reduction_helper_1
  rw [if_neg (by decide)]
  have hspec : ∀ (st : Char) (dt : Option Char),
      uumpy_reduction_find_unary_spec UUMPY_REDUCTION_OP_ALL st dt = none := by
    intro st dt
    simp [uumpy_reduction_find_unary_spec, uumpy_reduction_no_fastpath,
      UUMPY_REDUCTION_OP_ALL, UUMPY_REDUCTION_OP_MAX, UUMPY_REDUCTION_OP_MIN,
      UUMPY_REDUCTION_OP_SUM, UUMPY_REDUCTION_OP_PROD,
      UUMPY_REDUCTION_OP_AVERAGE, UUMPY_REDUCTION_FLAG_BOOL_OUT]
  rw [hspec]

end Uumpy
